import Mathlib

/-!
# AR0231 embedded register decoding

A shallow embedding of `system/camerad/sensors/ar0231.cc`: the register LUT builder, the
register reader with its per-session LUT cache, the temperature converter and the frame
metadata extractor, followed by the properties proved about them.

Conventions of the embedding.
* A `uint8_t *` is a function from byte offsets to numbers; every load reduces modulo `256`.
* `uint16_t` and `uint32_t` arithmetic is arithmetic on `Nat` reduced modulo `2 ^ 16`, `2 ^ 32`.
* A `std::map` with `uint16_t` keys is an association list in ascending key order.
* A failed `assert` ends the run: functions that can reach one return the state at that point
  together with `none` (or `Exit.aborted`).
-/

namespace AR0231

/-! ## `std::map` -/

/-- A `std::map` keyed by register address: entries in ascending key order. -/
abbrev StdMap (V : Type) := List (Nat × V)

/-- Lookup without insertion (`std::map::find`). -/
def map_find {V : Type} : StdMap V → Nat → Option V
  | [], _ => none
  | (k, v) :: rest, a => if a = k then some v else map_find rest a

/-- Assignment `m[a] = v`: overwrite the entry of `a`, or insert it at its place in key order. -/
def map_assign {V : Type} : StdMap V → Nat → V → StdMap V
  | [], a, v => [(a, v)]
  | (k, w) :: rest, a, v =>
    if a < k then (a, v) :: (k, w) :: rest
    else if a = k then (a, v) :: rest
    else (k, w) :: map_assign rest a v

/-- Read through `operator[]`: a missing key is first inserted with the value-initialised
element `dflt`; the result is the map afterwards and the element read. -/
def map_index {V : Type} (dflt : V) (m : StdMap V) (a : Nat) : StdMap V × V :=
  match map_find m a with
  | some v => (m, v)
  | none => (map_assign m a dflt, dflt)

/-- The keys of a map, in order. -/
def map_keys {V : Type} (m : StdMap V) : List Nat := m.map Prod.fst

/-! ## Data model -/

/-- A byte pointer: offset to stored number. -/
abbrev Bytes := Nat → Nat

/-- Load of a `uint8_t`. -/
def load (data : Bytes) (i : Nat) : Nat := data i % 256

/-- The register LUT: address to the offsets of the high and the low byte of its value. -/
abbrev Lut := StdMap (Nat × Nat)

/-- The fields of `CameraInfo` used by the decoder. Its declaration (`camera_common.h`) is not
among the sources; the row stride and the offset of the register region are natural numbers. -/
structure CameraInfo where
  frame_stride : Nat
  registers_offset : Nat

/-- The fields of `CameraState` used by the decoder: the camera configuration, the bytes of the
current camera buffer (`buf.cur_camera_buf->addr`) and the LUT cache. -/
structure CameraState where
  ci : CameraInfo
  cur_camera_buf : Bytes
  ar0231_register_lut : Lut

/-- The part of `cereal::FrameData::Builder` written by the extractor. -/
structure FrameData where
  frameIdSensor : Nat
  temperaturesC : List (Option ℚ)
deriving DecidableEq

/-- How a call ended: it returned, or an `assert` failed. -/
inductive Exit where
  | returned
  | aborted
deriving DecidableEq, Repr

/-! ## Register LUT builder -/

/-- The scan bound of each of the two register rows. -/
def max_i (register_row : Nat) : Nat :=
  if register_row = 0 then 1828 / 2 * 3 else 1500 / 2 * 3

/-- Every third byte is padding. -/
def get_next_idx (cur_idx : Nat) : Nat :=
  if cur_idx % 3 = 1 then cur_idx + 2 else cur_idx + 1

/-- The variables live across the iterations of the scan of one row, and the map being built. -/
structure ScanState where
  value_tag_count : Nat
  first_val_idx : Nat
  cur_addr : Nat
  registers : Lut
deriving DecidableEq

/-- The body of the inner loop at index `i` of the row `registers_raw`, whose offset in the
region is `base = frame_stride * register_row`. -/
def scan_body (base : Nat) (registers_raw : Bytes) (i : Nat) (s : ScanState) : ScanState :=
  let val_idx := get_next_idx i
  let tag := load registers_raw i
  let val := load registers_raw val_idx
  if tag = 0xAA then
    { s with cur_addr := (val <<< 8) % 65536 }
  else if tag = 0xA5 then
    { s with cur_addr := ((s.cur_addr ||| val) + 65536 - 2) % 65536 }
  else if tag = 0x5A then
    if s.value_tag_count % 2 = 0 then
      { s with value_tag_count := s.value_tag_count + 1
               first_val_idx := val_idx
               cur_addr := (s.cur_addr + 2) % 65536 }
    else
      { s with value_tag_count := s.value_tag_count + 1
               registers := map_assign s.registers s.cur_addr
                 (s.first_val_idx + base, val_idx + base) }
  else s

/-- The inner loop `for (i = ..; i <= bound; i = get_next_idx(get_next_idx(i)))` from index `i`. -/
def scan_row (base : Nat) (registers_raw : Bytes) (bound : Nat) (i : Nat) (s : ScanState) :
    ScanState :=
  if i ≤ bound then
    scan_row base registers_raw bound (get_next_idx (get_next_idx i))
      (scan_body base registers_raw i s)
  else s
termination_by bound + 1 - i
decreasing_by
  simp only [get_next_idx]
  split <;> split <;> omega

/-- One iteration of the outer loop: the start-of-line assertion, then the scan of the row with
fresh loop variables. `none` is the failed assertion. -/
def build_row (c : CameraState) (data : Bytes) (register_row : Nat) (registers : Lut) :
    Option Lut :=
  let registers_raw : Bytes := fun j => data (c.ci.frame_stride * register_row + j)
  if load registers_raw 0 = 0x0A then
    some (scan_row (c.ci.frame_stride * register_row) registers_raw (max_i register_row) 1
      { value_tag_count := 0, first_val_idx := 0, cur_addr := 0, registers := registers }).registers
  else none

/-- The builder: rows 0 and 1 in turn, into one map. -/
def ar0231_build_register_lut (c : CameraState) (data : Bytes) : Option Lut :=
  (build_row c data 0 []).bind (build_row c data 1)

/-! ## Register reader -/

/-- The loop over the requested addresses: the LUT is read through `operator[]`, the value is
assembled from the two bytes and stored in the result map. -/
def read_registers (data : Bytes) : List Nat → Lut × StdMap Nat → Lut × StdMap Nat
  | [], acc => acc
  | addr :: addrs, (lut, registers) =>
    let r := map_index (0, 0) lut addr
    let offset := r.2
    read_registers data addrs
      (r.1, map_assign registers addr (((load data offset.1 <<< 8) ||| load data offset.2) % 65536))

/-- The reader: build and cache the LUT when the cache is empty, then read the requested
addresses. The result map is `none` when the build hit a failed assertion. -/
def ar0231_parse_registers (c : CameraState) (data : Bytes) (addrs : List Nat) :
    CameraState × Option (StdMap Nat) :=
  if c.ar0231_register_lut.isEmpty then
    match ar0231_build_register_lut c data with
    | none => (c, none)
    | some lut =>
      let r := read_registers data addrs (lut, [])
      ({ c with ar0231_register_lut := r.1 }, some r.2)
  else
    let r := read_registers data addrs (c.ar0231_register_lut, [])
    ({ c with ar0231_register_lut := r.1 }, some r.2)

/-! ## Temperature converter -/

/-- The temperature line through `(calib2, 55)` and `(calib1, 125)`. The source computes it in
binary floating point; here the arithmetic is exact, over the rationals, and the non-finite
result of a zero divisor is `none`. -/
def ar0231_parse_temp_sensor (calib1 calib2 data_reg : Nat) : Option ℚ :=
  if calib1 = calib2 then none
  else
    let slope : ℚ := (125 - 55) / ((calib1 : ℚ) - (calib2 : ℚ))
    let t0 : ℚ := 55 - slope * (calib2 : ℚ)
    some (t0 + slope * (data_reg : ℚ))

/-! ## Frame metadata extractor -/

/-- The preamble expected at the start of the register region. -/
def expected_preamble : List Nat := [0x0a, 0xaa, 0x55, 0x20, 0xa5, 0x55]

/-- The register region of the current camera buffer. -/
def register_data (c : CameraState) : Bytes :=
  fun j => c.cur_camera_buf (c.ci.registers_offset + j)

/-- The comparison `memcmp(data, expected_preamble, 6) != 0`. -/
def preamble_mismatch (data : Bytes) : Bool :=
  (List.range expected_preamble.length).map (load data) != expected_preamble

/-- The registers the extractor asks for. -/
def requested_addrs : List Nat := [0x2000, 0x2002, 0x20b0, 0x20b2, 0x30c6, 0x30c8, 0x30ca, 0x30cc]

/-- Read of the local result map through `operator[]`. -/
def reg (registers : StdMap Nat) (a : Nat) : Nat := (map_index 0 registers a).2

/-- The frame id `((uint32_t)hi << 16) | lo`. -/
def compose_frame_id (hi lo : Nat) : Nat := (((hi % 2 ^ 32) <<< 16) % 2 ^ 32) ||| lo

/-- The extractor: camera state and record at exit, and how the call ended. The parameter
`MultiCameraState *s` of the source is not used by the function and has no counterpart. -/
def ar0231_process_registers (c : CameraState) (framed : FrameData) :
    CameraState × FrameData × Exit :=
  let data := register_data c
  if preamble_mismatch data then (c, framed, Exit.returned)
  else
    match ar0231_parse_registers c data requested_addrs with
    | (c1, none) => (c1, framed, Exit.aborted)
    | (c1, some registers) =>
      let frame_id := compose_frame_id (reg registers 0x2000) (reg registers 0x2002)
      let framed1 := { framed with frameIdSensor := frame_id }
      let temp_0 := ar0231_parse_temp_sensor (reg registers 0x30c6) (reg registers 0x30c8)
        (reg registers 0x20b0)
      let temp_1 := ar0231_parse_temp_sensor (reg registers 0x30ca) (reg registers 0x30cc)
        (reg registers 0x20b2)
      (c1, { framed1 with temperaturesC := [temp_0, temp_1] }, Exit.returned)

/-! ## Predicates used in the statements -/

/-- One of the three marker bytes `0xAA`, `0xA5`, `0x5A`. -/
def is_marker (b : Nat) : Prop := b = 0xAA ∨ b = 0xA5 ∨ b = 0x5A

instance (b : Nat) : Decidable (is_marker b) := by
  unfold is_marker
  infer_instance

/-- The map after `n` consecutive value pairs whose first tag sits at row index `i`, starting
with pending address `A`: pair `k` is stored under `A + 2 * (k + 1)`. -/
def assign_run (base : Nat) : Nat → Nat → Nat → Lut → Lut
  | 0, _, _, regs => regs
  | n + 1, A, i, regs =>
    assign_run base n ((A + 2) % 65536) (i + 6)
      (map_assign regs ((A + 2) % 65536) (i + 2 + base, i + 5 + base))

/-- The region starts with the six bytes of the expected preamble. -/
def has_preamble (data : Bytes) : Prop :=
  load data 0 = 0x0A ∧ load data 1 = 0xAA ∧ load data 2 = 0x55 ∧ load data 3 = 0x20 ∧
    load data 4 = 0xA5 ∧ load data 5 = 0x55

instance (data : Bytes) : Decidable (has_preamble data) := by
  unfold has_preamble
  infer_instance

/-- The LUT the reader works with in a call: the cached one, or, when the cache is empty, the
one built from the region of this call. -/
def lut_in_use (c : CameraState) (data : Bytes) : Option Lut :=
  if c.ar0231_register_lut.isEmpty then ar0231_build_register_lut c data
  else some c.ar0231_register_lut

/-! ## The scan loop, step by step -/

/-- The indices at which the loop header
`for (i = ..; i <= bound; i = get_next_idx(get_next_idx(i)))` runs the body, from index `i` on,
in the order of the run. -/
def scan_indices (bound : Nat) (i : Nat) : List Nat :=
  if i ≤ bound then i :: scan_indices bound (get_next_idx (get_next_idx i)) else []
termination_by bound + 1 - i
decreasing_by
  simp only [get_next_idx]
  split <;> split <;> omega

/-- The state after the body has run at the first `k` tag positions `1, 4, ..., 1 + 3 * (k - 1)`
of a row. -/
def scan_upto (base : Nat) (registers_raw : Bytes) : Nat → ScanState → ScanState
  | 0, s => s
  | k + 1, s => scan_body base registers_raw (1 + 3 * k) (scan_upto base registers_raw k s)

/-- An entry written by the scan of a row: row-relative offsets `p < q`, both multiples of 3,
`p` at least 3 and `q` at most the bound, each two positions after a value tag of that row. -/
def row_entry (base : Nat) (registers_raw : Bytes) (bound : Nat) (e : Nat × (Nat × Nat)) : Prop :=
  ∃ p q, e.2 = (p + base, q + base) ∧ p % 3 = 0 ∧ q % 3 = 0 ∧ 3 ≤ p ∧ p + 3 ≤ q ∧ q ≤ bound ∧
    load registers_raw (p - 2) = 0x5A ∧ load registers_raw (q - 2) = 0x5A

/-- Every offset stored in the LUT is below `size`. -/
def lut_in_bounds (size : Nat) (lut : Lut) : Prop :=
  ∀ e, e ∈ lut → e.2.1 < size ∧ e.2.2 < size

/-! ## Row-wise description of the builder, following the spec -/

/-- Every offset of a LUT moved by `b`. -/
def shift_offsets (b : Nat) (m : Lut) : Lut :=
  m.map (fun e => (e.1, (e.2.1 + b, e.2.2 + b)))

/-- Following the spec, the LUT of row `r` alone: the scan of that row's bytes from a fresh
decoder state (pending address 0, no half-finished value pair, empty map) with row-relative
offsets, then `stride * r` added to every offset. -/
def spec_row_lut (stride : Nat) (data : Bytes) (r : Nat) : Lut :=
  shift_offsets (stride * r)
    (scan_row 0 (fun j => data (stride * r + j)) (max_i r) 1
      { value_tag_count := 0, first_val_idx := 0, cur_addr := 0, registers := [] }).registers

/-- Following the spec, the map `m0` overlaid by `m1`: every entry of `m1` is written into `m0`
as a plain-mapping insert, so `m1` wins on a common key. -/
def spec_overlay (m0 m1 : Lut) : Lut :=
  m1.foldl (fun acc e => map_assign acc e.1 e.2) m0

/-- Following the spec, the LUT of a region: row 0 overlaid by row 1. -/
def spec_build_register_lut (stride : Nat) (data : Bytes) : Lut :=
  spec_overlay (spec_row_lut stride data 0) (spec_row_lut stride data 1)

/-! ## Concrete inputs -/

/-- A camera with stride 2743, the register region at offset 0 of the buffer `buf`, and the
LUT cache `lut`. -/
def cam (buf : Bytes) (lut : Lut) : CameraState :=
  { ci := { frame_stride := 2743, registers_offset := 0 }
    cur_camera_buf := buf
    ar0231_register_lut := lut }

/-- A region starting `0A AA 55 20 A5 55 00 5A 00 12 5A 00 34 5A 00 56 5A 00 78`: address
`0x2000` followed by two value pairs in row 0. Row 1 starts at 2743 with `0x0A`; every other
byte is zero. -/
def region_golden : Bytes := fun i =>
  if i = 0 then 0x0A else if i = 1 then 0xAA else if i = 2 then 0x55 else if i = 3 then 0x20
  else if i = 4 then 0xA5 else if i = 5 then 0x55 else if i = 7 then 0x5A
  else if i = 9 then 0x12 else if i = 10 then 0x5A else if i = 12 then 0x34
  else if i = 13 then 0x5A else if i = 15 then 0x56 else if i = 16 then 0x5A
  else if i = 18 then 0x78 else if i = 2743 then 0x0A else 0

/-- A region whose row 1 (stride 2743) carries, in triplets 5 to 8, address `0x0000` with
value `0xBEEF`; zero elsewhere but for the two start-of-line markers. -/
def region_round_trip : Bytes := fun i =>
  if i = 0 then 0x0A else if i = 2743 then 0x0A else if i = 2759 then 0xAA
  else if i = 2762 then 0xA5 else if i = 2765 then 0x5A else if i = 2767 then 0xBE
  else if i = 2768 then 0x5A else if i = 2770 then 0xEF else 0

/-- A region with both start-of-line markers (stride 2743) and no tag at all. -/
def region_blank : Bytes := fun i => if i = 0 then 0x0A else if i = 2743 then 0x0A else 0

/-- A region with the preamble `0A AA 55 20 A5 55` and zero everywhere else: row 1 (stride
2743) does not start with `0x0A`. -/
def region_no_row1_marker : Bytes := fun i =>
  if i = 0 then 0x0A else if i = 1 then 0xAA else if i = 2 then 0x55 else if i = 3 then 0x20
  else if i = 4 then 0xA5 else if i = 5 then 0x55 else 0

/-- A region (stride 2743) whose only tags are a value tag at the last tag position of row 0
(index 2740) and a value tag at the first tag position of row 1 (index 2743 + 1). -/
def region_split : Bytes := fun i =>
  if i = 0 then 0x0A else if i = 2740 then 0x5A else if i = 2743 then 0x0A
  else if i = 2744 then 0x5A else 0

/-- A region with the preamble followed by the bytes `09 C4 0B B8 07 D0 0D AC`, that is the
16-bit values 2500, 3000, 2000 and 3500 at offsets 6, 8, 10 and 12; zero elsewhere. -/
def region_temps : Bytes := fun i =>
  if i = 0 then 0x0A else if i = 1 then 0xAA else if i = 2 then 0x55 else if i = 3 then 0x20
  else if i = 4 then 0xA5 else if i = 5 then 0x55 else if i = 6 then 0x09
  else if i = 7 then 0xC4 else if i = 8 then 0x0B else if i = 9 then 0xB8
  else if i = 10 then 0x07 else if i = 11 then 0xD0 else if i = 12 then 0x0D
  else if i = 13 then 0xAC else 0

/-- A populated cache holding the eight requested registers: the temperature data registers
at offsets 6 and 12, both calibration pairs at offsets 8 and 10. -/
def lut_temps : Lut :=
  [(0x2000, (0, 1)), (0x2002, (2, 3)), (0x20b0, (6, 7)), (0x20b2, (12, 13)),
   (0x30c6, (8, 9)), (0x30c8, (10, 11)), (0x30ca, (8, 9)), (0x30cc, (10, 11))]

/-- A metadata record before extraction. -/
def frame_unset : FrameData := { frameIdSensor := 0, temperaturesC := [] }

/-! ## Lemmas on maps -/

theorem map_find_assign {V : Type} (m : StdMap V) (a : Nat) (v : V) (b : Nat) :
    map_find (map_assign m a v) b = if b = a then some v else map_find m b := by
  induction m with
  | nil => simp [map_assign, map_find]
  | cons e rest ih =>
    obtain ⟨k, w⟩ := e
    simp only [map_assign]
    split
    · simp [map_find]
    · split
      · rename_i h1 h2
        subst h2
        simp only [map_find]
        split <;> simp_all
      · rename_i h1 h2
        simp only [map_find, ih]
        split
        · rename_i h3
          subst h3
          have : ¬ b = a := fun h => h2 h.symm
          simp [this]
        · rfl

theorem mem_map_keys_iff {V : Type} (m : StdMap V) (a : Nat) :
    a ∈ map_keys m ↔ ∃ v, map_find m a = some v := by
  induction m with
  | nil => simp [map_keys, map_find]
  | cons e rest ih =>
    obtain ⟨k, w⟩ := e
    simp only [map_keys, List.map_cons, List.mem_cons, map_find] at ih ⊢
    by_cases h : a = k
    · simp [h]
    · simp [h, ih]

theorem map_find_eq_none_iff {V : Type} (m : StdMap V) (a : Nat) :
    map_find m a = none ↔ a ∉ map_keys m := by
  rw [mem_map_keys_iff]
  cases map_find m a <;> simp

theorem map_assign_ne_nil {V : Type} (m : StdMap V) (a : Nat) (v : V) : map_assign m a v ≠ [] := by
  cases m with
  | nil => simp [map_assign]
  | cons e rest =>
    obtain ⟨k, w⟩ := e
    simp only [map_assign]
    split
    · simp
    · split <;> simp

theorem map_keys_assign_mem {V : Type} (m : StdMap V) (a : Nat) (v : V) (b : Nat) :
    b ∈ map_keys (map_assign m a v) ↔ b = a ∨ b ∈ map_keys m := by
  simp only [mem_map_keys_iff, map_find_assign]
  by_cases h : b = a
  · simp [h]
  · simp [h]

theorem map_assign_sorted {V : Type} (m : StdMap V) (a : Nat) (v : V)
    (h : (map_keys m).Pairwise (· < ·)) : (map_keys (map_assign m a v)).Pairwise (· < ·) := by
  induction m with
  | nil => simp [map_assign, map_keys]
  | cons e rest ih =>
    obtain ⟨k, w⟩ := e
    have hk : ∀ b ∈ map_keys rest, k < b := by
      intro b hb
      simp only [map_keys, List.map_cons, List.pairwise_cons] at h
      exact h.1 b hb
    have hrest : (map_keys rest).Pairwise (· < ·) := by
      simp only [map_keys, List.map_cons, List.pairwise_cons] at h
      exact h.2
    simp only [map_assign]
    split
    · rename_i h1
      simp only [map_keys, List.map_cons, List.pairwise_cons, List.mem_cons]
      refine ⟨?_, ?_, hrest⟩
      · intro b hb
        rcases hb with hb | hb
        · omega
        · have := hk b hb
          omega
      · exact hk
    · split
      · rename_i h1 h2
        subst h2
        simp only [map_keys, List.map_cons, List.pairwise_cons]
        exact ⟨hk, hrest⟩
      · rename_i h1 h2
        have h3 := ih hrest
        have : map_keys ((k, w) :: map_assign rest a v) = k :: map_keys (map_assign rest a v) := rfl
        rw [this, List.pairwise_cons]
        refine ⟨?_, h3⟩
        intro b hb
        rw [map_keys_assign_mem] at hb
        rcases hb with hb | hb
        · omega
        · exact hk b hb

/-! ## Lemmas on the scan loop -/

theorem get_next_idx_tag (i : Nat) (h : i % 3 = 1) : get_next_idx i = i + 2 := by
  simp [get_next_idx, h]

theorem get_next_idx_twice (i : Nat) (h : i % 3 = 1) :
    get_next_idx (get_next_idx i) = i + 3 := by
  have h2 : (i + 2) % 3 ≠ 1 := by omega
  simp [get_next_idx, h, h2]

theorem scan_row_step (base : Nat) (raw : Bytes) (bound i : Nat) (s : ScanState)
    (hi : i % 3 = 1) (hb : i ≤ bound) :
    scan_row base raw bound i s = scan_row base raw bound (i + 3) (scan_body base raw i s) := by
  rw [scan_row, if_pos hb, get_next_idx_twice i hi]

theorem scan_row_done (base : Nat) (raw : Bytes) (bound i : Nat) (s : ScanState)
    (hb : bound < i) : scan_row base raw bound i s = s := by
  rw [scan_row, if_neg (by omega)]

theorem scan_body_idle (base : Nat) (raw : Bytes) (i : Nat) (s : ScanState)
    (h : ¬ is_marker (load raw i)) : scan_body base raw i s = s := by
  simp only [is_marker, not_or] at h
  simp [scan_body, h.1, h.2.1, h.2.2]

/-- Triplets without a marker leave the loop variables and the map as they are. -/
theorem scan_row_skip (base : Nat) (raw : Bytes) (bound : Nat) (m : Nat) :
    ∀ (i : Nat) (s : ScanState), i % 3 = 1 →
      (∀ k, k < m → i + 3 * k ≤ bound ∧ ¬ is_marker (load raw (i + 3 * k))) →
      scan_row base raw bound i s = scan_row base raw bound (i + 3 * m) s := by
  induction m with
  | zero => intro i s _ _; rfl
  | succ m ih =>
    intro i s hi h
    have h0 := h 0 (by omega)
    rw [scan_row_step base raw bound i s hi (by simpa using h0.1),
      scan_body_idle base raw i s (by simpa using h0.2), ih (i + 3) s (by omega)]
    · congr 1
      omega
    · intro k hk
      have := h (k + 1) (by omega)
      have e : i + 3 + 3 * k = i + 3 * (k + 1) := by omega
      rw [e]
      exact this

/-- A row tail without markers up to the bound ends the scan with the state unchanged. -/
theorem scan_row_idle (base : Nat) (raw : Bytes) (bound : Nat) (i : Nat) (s : ScanState)
    (hi : i % 3 = 1)
    (h : ∀ k, i + 3 * k ≤ bound → ¬ is_marker (load raw (i + 3 * k))) :
    scan_row base raw bound i s = s := by
  rw [scan_row_skip base raw bound ((bound + 3 - i) / 3) i s hi]
  · apply scan_row_done
    omega
  · intro k hk
    have : i + 3 * k ≤ bound := by omega
    exact ⟨this, h k this⟩

theorem load_lt (data : Bytes) (i : Nat) : load data i < 256 := by
  unfold load
  omega

theorem scan_body_msb (base : Nat) (raw : Bytes) (i : Nat) (s : ScanState) (hi : i % 3 = 1)
    (h : load raw i = 0xAA) :
    scan_body base raw i s = { s with cur_addr := 256 * load raw (i + 2) } := by
  have hl := load_lt raw (i + 2)
  have e : (load raw (i + 2) <<< 8) % 65536 = 256 * load raw (i + 2) := by
    rw [Nat.shiftLeft_eq]
    omega
  simp [scan_body, h, get_next_idx_tag i hi, e]

theorem scan_body_lsb (base : Nat) (raw : Bytes) (i : Nat) (s : ScanState) (hi : i % 3 = 1)
    (h : load raw i = 0xA5) :
    scan_body base raw i s =
      { s with cur_addr := ((s.cur_addr ||| load raw (i + 2)) + 65536 - 2) % 65536 } := by
  simp [scan_body, h, get_next_idx_tag i hi]

theorem scan_body_first (base : Nat) (raw : Bytes) (i : Nat) (s : ScanState) (hi : i % 3 = 1)
    (h : load raw i = 0x5A) (hc : s.value_tag_count % 2 = 0) :
    scan_body base raw i s =
      { s with value_tag_count := s.value_tag_count + 1
               first_val_idx := i + 2
               cur_addr := (s.cur_addr + 2) % 65536 } := by
  simp [scan_body, h, get_next_idx_tag i hi, hc]

theorem scan_body_second (base : Nat) (raw : Bytes) (i : Nat) (s : ScanState) (hi : i % 3 = 1)
    (h : load raw i = 0x5A) (hc : s.value_tag_count % 2 = 1) :
    scan_body base raw i s =
      { s with value_tag_count := s.value_tag_count + 1
               registers := map_assign s.registers s.cur_addr
                 (s.first_val_idx + base, i + 2 + base) } := by
  simp [scan_body, h, get_next_idx_tag i hi, hc]

/-- A contiguous run of `n` value pairs from a state with an even tag count. -/
theorem scan_row_pairs (base : Nat) (raw : Bytes) (bound : Nat) (n : Nat) :
    ∀ (i : Nat) (s : ScanState), i % 3 = 1 → s.value_tag_count % 2 = 0 →
      (∀ j, j < 2 * n → i + 3 * j ≤ bound ∧ load raw (i + 3 * j) = 0x5A) →
      ∃ s1 : ScanState, scan_row base raw bound i s = scan_row base raw bound (i + 6 * n) s1 ∧
        s1.value_tag_count % 2 = 0 ∧
        s1.registers = assign_run base n s.cur_addr i s.registers := by
  induction n with
  | zero =>
    intro i s _ hc _
    exact ⟨s, rfl, hc, rfl⟩
  | succ n ih =>
    intro i s hi hc h
    have h0 := h 0 (by omega)
    have h1 := h 1 (by omega)
    simp only [Nat.mul_zero, Nat.add_zero, Nat.mul_one] at h0 h1
    rw [scan_row_step base raw bound i s hi h0.1, scan_body_first base raw i s hi h0.2 hc,
      scan_row_step base raw bound (i + 3) _ (by omega) h1.1,
      scan_body_second base raw (i + 3) _ (by omega) h1.2 (by simp only; omega)]
    obtain ⟨s1, e1, e2, e3⟩ := ih (i + 3 + 3)
      { value_tag_count := s.value_tag_count + 1 + 1
        first_val_idx := i + 2
        cur_addr := (s.cur_addr + 2) % 65536
        registers := map_assign s.registers ((s.cur_addr + 2) % 65536)
          (i + 2 + base, i + 3 + 2 + base) }
      (by omega) (by simp only; omega)
      (by
        intro j hj
        have := h (j + 2) (by omega)
        have e : i + 3 + 3 + 3 * j = i + 3 * (j + 2) := by omega
        rw [e]
        exact this)
    refine ⟨s1, ?_, e2, ?_⟩
    · rw [e1]
      congr 1
      omega
    · rw [e3]
      simp only [assign_run]

/-- What a run of value pairs leaves in the map, entry by entry. -/
theorem map_find_assign_run (base : Nat) (n : Nat) :
    ∀ (A i : Nat) (regs : Lut) (a : Nat) (p : Nat × Nat), n ≤ 32768 →
      (map_find (assign_run base n A i regs) a = some p ↔
        (∃ k, k < n ∧ a = (A + 2 * (k + 1)) % 65536 ∧
          p = (i + 6 * k + 2 + base, i + 6 * k + 5 + base)) ∨
        ((∀ k, k < n → a ≠ (A + 2 * (k + 1)) % 65536) ∧ map_find regs a = some p)) := by
  induction n with
  | zero =>
    intro A i regs a p _
    simp [assign_run]
  | succ n ih =>
    intro A i regs a p hn
    simp only [assign_run]
    rw [ih ((A + 2) % 65536) (i + 6) _ a p (by omega), map_find_assign]
    constructor
    · rintro (⟨k, hk, ha, hp⟩ | ⟨hne, hf⟩)
      · left
        refine ⟨k + 1, by omega, by omega, ?_⟩
        rw [hp]
        congr 1 <;> omega
      · by_cases hA : a = (A + 2) % 65536
        · left
          rw [if_pos hA] at hf
          refine ⟨0, by omega, by omega, ?_⟩
          simp only [Option.some.injEq] at hf
          rw [← hf]
        · right
          rw [if_neg hA] at hf
          refine ⟨?_, hf⟩
          intro k hk
          rcases k with _ | k
          · omega
          · have := hne k (by omega)
            omega
    · rintro (⟨k, hk, ha, hp⟩ | ⟨hne, hf⟩)
      · rcases k with _ | k
        · right
          have hA : a = (A + 2) % 65536 := by omega
          refine ⟨?_, ?_⟩
          · intro k hk
            omega
          · rw [if_pos hA, hp]
        · left
          refine ⟨k, by omega, by omega, ?_⟩
          rw [hp]
          congr 1 <;> omega
      · right
        have hA : a ≠ (A + 2) % 65536 := by
          have := hne 0 (by omega)
          omega
        refine ⟨?_, ?_⟩
        · intro k hk
          have := hne (k + 1) (by omega)
          omega
        · rw [if_neg hA]
          exact hf

theorem assign_run_sorted (base : Nat) (n : Nat) :
    ∀ (A i : Nat) (regs : Lut), (map_keys regs).Pairwise (· < ·) →
      (map_keys (assign_run base n A i regs)).Pairwise (· < ·) := by
  induction n with
  | zero => intro A i regs h; exact h
  | succ n ih =>
    intro A i regs h
    simp only [assign_run]
    exact ih _ _ _ (map_assign_sorted _ _ _ h)

theorem or_byte (hi lo : Nat) (h : lo < 256) : (256 * hi) ||| lo = 256 * hi + lo :=
  (@Nat.mul_add_lt_is_or 8 lo h hi).symm

theorem max_i_row0 : max_i 0 = 2742 := rfl

theorem max_i_row1 : max_i 1 = 2250 := rfl

/-- A row holding one address declaration at triplet `t` followed by `n` value pairs, and no
other marker: the scan from a fresh state adds exactly that run to the map. -/
theorem scan_row_group (base : Nat) (raw : Bytes) (bound t n : Nat) (regs : Lut)
    (hfit : 1 + 3 * (t + 1 + 2 * n) ≤ bound)
    (hAA : load raw (1 + 3 * t) = 0xAA)
    (hA5 : load raw (4 + 3 * t) = 0xA5)
    (h5A : ∀ j, j < 2 * n → load raw (7 + 3 * t + 3 * j) = 0x5A)
    (hrest : ∀ k, 1 + 3 * k ≤ bound → (k < t ∨ t + 1 + 2 * n < k) →
      ¬ is_marker (load raw (1 + 3 * k))) :
    (scan_row base raw bound 1
      { value_tag_count := 0, first_val_idx := 0, cur_addr := 0, registers := regs }).registers =
      assign_run base n ((256 * load raw (3 + 3 * t) + load raw (6 + 3 * t) + 65534) % 65536)
        (7 + 3 * t) regs := by
  rw [scan_row_skip base raw bound t 1 _ (by omega)
    (fun k hk => ⟨by omega, hrest k (by omega) (Or.inl hk)⟩),
    scan_row_step base raw bound (1 + 3 * t) _ (by omega) (by omega),
    scan_body_msb base raw (1 + 3 * t) _ (by omega) hAA,
    scan_row_step base raw bound (1 + 3 * t + 3) _ (by omega) (by omega),
    scan_body_lsb base raw (1 + 3 * t + 3) _ (by omega) (by rw [← hA5]; congr 1; omega)]
  obtain ⟨s1, e1, _, e3⟩ := scan_row_pairs base raw bound n (1 + 3 * t + 3 + 3)
    { value_tag_count := 0, first_val_idx := 0
      cur_addr := ((256 * load raw (1 + 3 * t + 2) ||| load raw (1 + 3 * t + 3 + 2)) + 65536 - 2)
        % 65536
      registers := regs }
    (by omega) rfl
    (by
      intro j hj
      refine ⟨by omega, ?_⟩
      rw [← h5A j hj]
      congr 1
      omega)
  rw [e1, scan_row_idle base raw bound _ s1 (by omega), e3]
  · have e4 : 1 + 3 * t + 2 = 3 + 3 * t := by omega
    have e5 : 1 + 3 * t + 3 + 2 = 6 + 3 * t := by omega
    have e6 : 1 + 3 * t + 3 + 3 = 7 + 3 * t := by omega
    simp only [e4, e5, e6]
    rw [or_byte _ _ (load_lt raw _)]
    congr 1
  · intro k hk
    have e : 1 + 3 * t + 3 + 3 + 6 * n + 3 * k = 1 + 3 * (t + 2 + 2 * n + k) := by omega
    rw [e] at hk ⊢
    exact hrest _ hk (Or.inr (by omega))

/-- A row without any marker at its scanned tag positions adds nothing to the map. -/
theorem scan_row_blank (base : Nat) (raw : Bytes) (bound : Nat) (s : ScanState)
    (h : ∀ k, 1 + 3 * k ≤ bound → ¬ is_marker (load raw (1 + 3 * k))) :
    scan_row base raw bound 1 s = s :=
  scan_row_idle base raw bound 1 s (by omega) h

theorem build_row_ok (c : CameraState) (data : Bytes) (r : Nat) (regs : Lut)
    (h : load data (c.ci.frame_stride * r) = 0x0A) :
    build_row c data r regs =
      some (scan_row (c.ci.frame_stride * r) (fun j => data (c.ci.frame_stride * r + j))
        (max_i r) 1
        { value_tag_count := 0, first_val_idx := 0, cur_addr := 0, registers := regs }).registers := by
  have h0 : load (fun j => data (c.ci.frame_stride * r + j)) 0 = 0x0A := h
  simp only [build_row, h0, if_true]

theorem build_row_fail (c : CameraState) (data : Bytes) (r : Nat) (regs : Lut)
    (h : load data (c.ci.frame_stride * r) ≠ 0x0A) : build_row c data r regs = none := by
  have h0 : load (fun j => data (c.ci.frame_stride * r + j)) 0 ≠ 0x0A := h
  simp only [build_row, h0, if_false]

theorem reg_value_eq (data : Bytes) (hi lo : Nat) :
    ((load data hi <<< 8) ||| load data lo) % 65536 = 256 * load data hi + load data lo := by
  have hl := load_lt data hi
  have hl2 := load_lt data lo
  rw [Nat.shiftLeft_eq, Nat.mul_comm, show (2:Nat) ^ 8 = 256 from rfl, or_byte _ _ hl2]
  omega

theorem map_index_fst_find (lut : Lut) (b a : Nat) :
    map_find (map_index (0, 0) lut b).1 a =
      match map_find lut a with
      | some p => some p
      | none => if a = b then some (0, 0) else none := by
  unfold map_index
  cases hb : map_find lut b with
  | some v =>
    simp only
    cases ha : map_find lut a with
    | some p => rfl
    | none =>
      have : a ≠ b := by
        intro h
        rw [h, hb] at ha
        cases ha
      simp [this]
  | none =>
    simp only
    rw [map_find_assign]
    by_cases h : a = b
    · subst h
      simp [hb]
    · simp only [h, if_false]
      cases map_find lut a <;> rfl

theorem map_index_snd (lut : Lut) (b : Nat) :
    (map_index (0, 0) lut b).2 = (map_find lut b).getD (0, 0) := by
  unfold map_index
  cases map_find lut b <;> rfl

theorem read_registers_cons (data : Bytes) (b : Nat) (addrs : List Nat) (lut : Lut)
    (regs : StdMap Nat) :
    read_registers data (b :: addrs) (lut, regs) =
      read_registers data addrs ((map_index (0, 0) lut b).1,
        map_assign regs b (256 * load data ((map_find lut b).getD (0, 0)).1 +
          load data ((map_find lut b).getD (0, 0)).2)) := by
  simp only [read_registers, reg_value_eq, map_index_snd]

/-- The session LUT after the read loop: old entries stay, every requested address that was
missing has the pair `(0, 0)`. -/
theorem read_registers_lut_find (data : Bytes) (addrs : List Nat) :
    ∀ (lut : Lut) (regs : StdMap Nat) (a : Nat),
      map_find (read_registers data addrs (lut, regs)).1 a =
        match map_find lut a with
        | some p => some p
        | none => if a ∈ addrs then some (0, 0) else none := by
  induction addrs with
  | nil =>
    intro lut regs a
    simp only [read_registers, List.not_mem_nil, if_false]
    cases map_find lut a <;> rfl
  | cons b addrs ih =>
    intro lut regs a
    rw [read_registers_cons, ih, map_index_fst_find]
    cases map_find lut a with
    | some p => rfl
    | none =>
      by_cases h : a = b
      · simp [h]
      · simp [h]

/-- The result map of the read loop: every requested address holds the big-endian value read
through its offset pair, `(0, 0)` when the LUT had none. -/
theorem read_registers_find (data : Bytes) (addrs : List Nat) :
    ∀ (lut : Lut) (regs : StdMap Nat) (a : Nat),
      map_find (read_registers data addrs (lut, regs)).2 a =
        if a ∈ addrs then
          some (256 * load data ((map_find lut a).getD (0, 0)).1 +
            load data ((map_find lut a).getD (0, 0)).2)
        else map_find regs a := by
  induction addrs with
  | nil =>
    intro lut regs a
    simp [read_registers]
  | cons b addrs ih =>
    intro lut regs a
    rw [read_registers_cons, ih, map_index_fst_find, map_find_assign]
    by_cases h1 : a ∈ addrs
    · have h2 : a ∈ b :: addrs := List.mem_cons_of_mem _ h1
      rw [if_pos h1, if_pos h2]
      cases hf : map_find lut a with
      | some p => rfl
      | none =>
        by_cases h : a = b
        · simp [h]
        · simp [h]
    · rw [if_neg h1]
      by_cases h : a = b
      · subst h
        simp
      · have h2 : a ∉ b :: addrs := by
          simp [h, h1]
        rw [if_neg h, if_neg h2]

theorem map_index_of_mem (lut : Lut) (b : Nat) (h : b ∈ map_keys lut) :
    (map_index (0, 0) lut b).1 = lut := by
  rw [mem_map_keys_iff] at h
  obtain ⟨v, hv⟩ := h
  simp [map_index, hv]

theorem read_registers_lut_same (data : Bytes) (addrs : List Nat) :
    ∀ (lut : Lut) (regs : StdMap Nat), (∀ a, a ∈ addrs → a ∈ map_keys lut) →
      (read_registers data addrs (lut, regs)).1 = lut := by
  induction addrs with
  | nil => intro lut regs _; rfl
  | cons b addrs ih =>
    intro lut regs h
    rw [read_registers_cons, map_index_of_mem lut b (h b (List.mem_cons_self _ _))]
    exact ih lut _ (fun a ha => h a (List.mem_cons_of_mem _ ha))

theorem map_index_ne_nil (lut : Lut) (b : Nat) : (map_index (0, 0) lut b).1 ≠ [] := by
  unfold map_index
  cases hb : map_find lut b with
  | some v =>
    simp only
    intro h
    rw [h] at hb
    cases hb
  | none => exact map_assign_ne_nil _ _ _

theorem read_registers_lut_ne_nil (data : Bytes) (addrs : List Nat) :
    ∀ (lut : Lut) (regs : StdMap Nat), lut ≠ [] ∨ addrs ≠ [] →
      (read_registers data addrs (lut, regs)).1 ≠ [] := by
  induction addrs with
  | nil =>
    intro lut regs h
    rcases h with h | h
    · exact h
    · exact absurd rfl h
  | cons b addrs ih =>
    intro lut regs _
    rw [read_registers_cons]
    exact ih _ _ (Or.inl (map_index_ne_nil lut b))

/-- The builder on a region whose only markers are one address declaration at triplet `t` of
row `r` followed by `n` value pairs. -/
theorem build_group (c : CameraState) (data : Bytes) (r t n : Nat) (hr : r < 2)
    (hfit : 1 + 3 * (t + 1 + 2 * n) ≤ max_i r)
    (hsol0 : load data (c.ci.frame_stride * 0) = 0x0A)
    (hsol1 : load data (c.ci.frame_stride * 1) = 0x0A)
    (hAA : load data (c.ci.frame_stride * r + (1 + 3 * t)) = 0xAA)
    (hA5 : load data (c.ci.frame_stride * r + (4 + 3 * t)) = 0xA5)
    (h5A : ∀ j, j < 2 * n → load data (c.ci.frame_stride * r + (7 + 3 * t + 3 * j)) = 0x5A)
    (hrest : ∀ q k, q < 2 → 1 + 3 * k ≤ max_i q → (q ≠ r ∨ k < t ∨ t + 1 + 2 * n < k) →
      ¬ is_marker (load data (c.ci.frame_stride * q + (1 + 3 * k)))) :
    ar0231_build_register_lut c data =
      some (assign_run (c.ci.frame_stride * r) n
        ((256 * load data (c.ci.frame_stride * r + (3 + 3 * t)) +
          load data (c.ci.frame_stride * r + (6 + 3 * t)) + 65534) % 65536)
        (7 + 3 * t) []) := by
  unfold ar0231_build_register_lut
  rw [build_row_ok c data 0 [] hsol0]
  show build_row c data 1 _ = _
  rw [build_row_ok c data 1 _ hsol1]
  have hcases : r = 0 ∨ r = 1 := by omega
  rcases hcases with h | h
  · subst h
    rw [scan_row_group (c.ci.frame_stride * 0) (fun j => data (c.ci.frame_stride * 0 + j))
      (max_i 0) t n [] hfit hAA hA5 h5A
      (fun k hk hor => hrest 0 k (by omega) hk (Or.inr hor)),
      scan_row_blank (c.ci.frame_stride * 1) (fun j => data (c.ci.frame_stride * 1 + j))
      (max_i 1) _ (fun k hk => hrest 1 k (by omega) hk (Or.inl (by omega)))]
    rfl
  · subst h
    rw [scan_row_blank (c.ci.frame_stride * 0) (fun j => data (c.ci.frame_stride * 0 + j))
      (max_i 0) _ (fun k hk => hrest 0 k (by omega) hk (Or.inl (by omega))),
      scan_row_group (c.ci.frame_stride * 1) (fun j => data (c.ci.frame_stride * 1 + j))
      (max_i 1) t n [] hfit hAA hA5 h5A
      (fun k hk hor => hrest 1 k (by omega) hk (Or.inr hor))]
    rfl

/-- The builder on a region without any marker at a scanned tag position. -/
theorem build_blank (c : CameraState) (data : Bytes)
    (hsol0 : load data (c.ci.frame_stride * 0) = 0x0A)
    (hsol1 : load data (c.ci.frame_stride * 1) = 0x0A)
    (hrest : ∀ q k, q < 2 → 1 + 3 * k ≤ max_i q →
      ¬ is_marker (load data (c.ci.frame_stride * q + (1 + 3 * k)))) :
    ar0231_build_register_lut c data = some [] := by
  unfold ar0231_build_register_lut
  rw [build_row_ok c data 0 [] hsol0]
  show build_row c data 1 _ = _
  rw [build_row_ok c data 1 _ hsol1,
    scan_row_blank (c.ci.frame_stride * 0) (fun j => data (c.ci.frame_stride * 0 + j))
      (max_i 0) _ (fun k hk => hrest 0 k (by omega) hk),
    scan_row_blank (c.ci.frame_stride * 1) (fun j => data (c.ci.frame_stride * 1 + j))
      (max_i 1) _ (fun k hk => hrest 1 k (by omega) hk)]

/-- C1: on a region with stride at least 2743 whose rows both start with `0x0A`, whose row 0
holds `0xAA` at position 1, `0xA5` at position 4 and `0x5A` at the `2 * n` positions `7 + 3 * j`
(`1 ≤ n ≤ 456`), and whose other scanned tag positions in both rows hold no marker byte,
`ar0231_build_register_lut` returns the map with ascending keys whose entries are exactly
`(256 * data[3] + data[6] + 2 * k) mod 65536 ↦ (9 + 6 * k, 12 + 6 * k)` for `k < n`. -/
theorem build_register_lut_contiguous_run (c : CameraState) (data : Bytes) (n : Nat)
    (_hstride : 2743 ≤ c.ci.frame_stride) (_hn1 : 1 ≤ n) (hn : n ≤ 456)
    (hsol0 : load data 0 = 0x0A) (hsol1 : load data c.ci.frame_stride = 0x0A)
    (hAA : load data 1 = 0xAA) (hA5 : load data 4 = 0xA5)
    (h5A : ∀ j, j < 2 * n → load data (7 + 3 * j) = 0x5A)
    (hrow0 : ∀ k, 2 + 2 * n ≤ k → 1 + 3 * k ≤ 2742 → ¬ is_marker (load data (1 + 3 * k)))
    (hrow1 : ∀ k, 1 + 3 * k ≤ 2250 →
      ¬ is_marker (load data (c.ci.frame_stride + (1 + 3 * k)))) :
    ∃ lut, ar0231_build_register_lut c data = some lut ∧
      (map_keys lut).Pairwise (· < ·) ∧
      ∀ a p, map_find lut a = some p ↔
        ∃ k, k < n ∧ a = (256 * load data 3 + load data 6 + 2 * k) % 65536 ∧
          p = (9 + 6 * k, 12 + 6 * k) := by
  have hb := build_group c data 0 0 n (by omega) (by rw [max_i_row0]; omega)
    (by simpa using hsol0) (by simpa using hsol1) (by simpa using hAA) (by simpa using hA5)
    (by
      intro j hj
      simpa using h5A j hj)
    (by
      intro q k hq hk hor
      have hq2 : q = 0 ∨ q = 1 := by omega
      rcases hq2 with h | h
      · subst h
        rw [max_i_row0] at hk
        simpa using hrow0 k (by omega) hk
      · subst h
        rw [max_i_row1] at hk
        simpa using hrow1 k hk)
  refine ⟨_, hb, ?_, ?_⟩
  · exact assign_run_sorted _ _ _ _ _ (by simp [map_keys])
  · intro a p
    rw [map_find_assign_run _ n _ _ _ a p (by omega)]
    simp only [Nat.mul_zero, Nat.zero_add, Nat.add_zero, map_find]
    constructor
    · rintro (⟨k, hk, ha, hp⟩ | ⟨_, hf⟩)
      · refine ⟨k, hk, by omega, ?_⟩
        rw [hp]
        congr 1 <;> omega
      · exact absurd hf (by simp)
    · rintro ⟨k, hk, ha, hp⟩
      left
      refine ⟨k, hk, by omega, ?_⟩
      rw [hp]
      congr 1 <;> omega


theorem is_marker_zero : ¬ is_marker 0 := by decide

theorem region_golden_zero (i : Nat) (h1 : 19 ≤ i) (h2 : i ≠ 2743) : load region_golden i = 0 := by
  unfold load region_golden
  simp only [h2, if_false]
  repeat rw [if_neg (by omega)]

/-- C1 at the region `0A AA 55 20 A5 55 00 5A .. .. 5A ..`: address `0x2000` maps to `(9, 12)`. -/
theorem build_register_lut_contiguous_run_witness :
    ∃ lut, ar0231_build_register_lut (cam region_golden []) region_golden = some lut ∧
      map_find lut 0x2000 = some (9, 12) ∧ map_find lut 0x2002 = some (15, 18) := by
  obtain ⟨lut, h1, _, h3⟩ := build_register_lut_contiguous_run (cam region_golden [])
    region_golden 2 (by decide) (by decide) (by decide) (by decide) (by decide) (by decide)
    (by decide)
    (by
      intro j hj
      have : j = 0 ∨ j = 1 ∨ j = 2 ∨ j = 3 := by omega
      rcases this with h | h | h | h <;> subst h <;> decide)
    (by
      intro k h1 h2
      rw [region_golden_zero _ (by omega) (by omega)]
      exact is_marker_zero)
    (by
      intro k h
      rw [region_golden_zero _ (by simp only [cam]; omega) (by simp only [cam]; omega)]
      exact is_marker_zero)
  exact ⟨lut, h1, (h3 0x2000 (9, 12)).2 ⟨0, by decide, by decide, by decide⟩,
    (h3 0x2002 (15, 18)).2 ⟨1, by decide, by decide, by decide⟩⟩

theorem assign_run_one (base A i : Nat) (regs : Lut) :
    assign_run base 1 A i regs =
      map_assign regs ((A + 2) % 65536) (i + 2 + base, i + 5 + base) := rfl

theorem map_assign_nil {V : Type} (a : Nat) (v : V) : map_assign [] a v = [(a, v)] := rfl

theorem parse_registers_empty_ok (c : CameraState) (data : Bytes) (addrs : List Nat) (lut : Lut)
    (he : c.ar0231_register_lut = []) (hb : ar0231_build_register_lut c data = some lut) :
    ar0231_parse_registers c data addrs =
      ({ c with ar0231_register_lut := (read_registers data addrs (lut, [])).1 },
        some (read_registers data addrs (lut, [])).2) := by
  unfold ar0231_parse_registers
  rw [he, hb]
  rfl

theorem parse_registers_empty_fail (c : CameraState) (data : Bytes) (addrs : List Nat)
    (he : c.ar0231_register_lut = []) (hb : ar0231_build_register_lut c data = none) :
    ar0231_parse_registers c data addrs = (c, none) := by
  unfold ar0231_parse_registers
  rw [he, hb]
  rfl

theorem parse_registers_cached (c : CameraState) (data : Bytes) (addrs : List Nat)
    (hne : c.ar0231_register_lut ≠ []) :
    ar0231_parse_registers c data addrs =
      ({ c with ar0231_register_lut := (read_registers data addrs (c.ar0231_register_lut, [])).1 },
        some (read_registers data addrs (c.ar0231_register_lut, [])).2) := by
  unfold ar0231_parse_registers
  have : c.ar0231_register_lut.isEmpty = false := by
    cases h : c.ar0231_register_lut with
    | nil => exact absurd h hne
    | cons e rest => rfl
  rw [this]
  rfl

theorem read_registers_single (data : Bytes) (a hi lo : Nat) :
    read_registers data [a] ([(a, (hi, lo))], []) =
      ([(a, (hi, lo))], [(a, 256 * load data hi + load data lo)]) := by
  simp [read_registers, map_index, map_find, map_assign, reg_value_eq]

/-- C2: round trip through the tag scheme. On a region with stride at least 2743 whose rows
both start with `0x0A`, whose row `r` carries in triplets `t .. t + 3` (tag at row position
`1 + 3 * k`, value at `3 + 3 * k`) the group `AA, a >> 8`, `A5, a & 0xFF`, `5A, v >> 8`,
`5A, v & 0xFF` with `t + 3 ≤ 913` in row 0 or `t + 3 ≤ 749` in row 1, and whose other scanned
tag positions hold no marker byte, `ar0231_parse_registers` from an empty LUT cache, asked for
the 16-bit address `a`, returns exactly the map `a ↦ v`. -/
theorem parse_registers_round_trip (c : CameraState) (data : Bytes) (a v r t : Nat)
    (hempty : c.ar0231_register_lut = [])
    (_hstride : 2743 ≤ c.ci.frame_stride) (ha : a < 65536) (_hv : v < 65536)
    (hrt : (r = 0 ∧ t + 3 ≤ 913) ∨ (r = 1 ∧ t + 3 ≤ 749))
    (hsol0 : load data 0 = 0x0A) (hsol1 : load data c.ci.frame_stride = 0x0A)
    (hAA : load data (c.ci.frame_stride * r + (1 + 3 * t)) = 0xAA)
    (hAAv : load data (c.ci.frame_stride * r + (3 + 3 * t)) = a / 256)
    (hA5 : load data (c.ci.frame_stride * r + (1 + 3 * (t + 1))) = 0xA5)
    (hA5v : load data (c.ci.frame_stride * r + (3 + 3 * (t + 1))) = a % 256)
    (hV1 : load data (c.ci.frame_stride * r + (1 + 3 * (t + 2))) = 0x5A)
    (hV1v : load data (c.ci.frame_stride * r + (3 + 3 * (t + 2))) = v / 256)
    (hV2 : load data (c.ci.frame_stride * r + (1 + 3 * (t + 3))) = 0x5A)
    (hV2v : load data (c.ci.frame_stride * r + (3 + 3 * (t + 3))) = v % 256)
    (hrest : ∀ q k, q < 2 → 1 + 3 * k ≤ max_i q → ¬ (q = r ∧ t ≤ k ∧ k ≤ t + 3) →
      ¬ is_marker (load data (c.ci.frame_stride * q + (1 + 3 * k)))) :
    (ar0231_parse_registers c data [a]).2 = some [(a, v)] := by
  have e1 : 4 + 3 * t = 1 + 3 * (t + 1) := by omega
  have e2 : 6 + 3 * t = 3 + 3 * (t + 1) := by omega
  have hb := build_group c data r t 1 (by omega)
    (by
      rcases hrt with ⟨h, h2⟩ | ⟨h, h2⟩
      · subst h; rw [max_i_row0]; omega
      · subst h; rw [max_i_row1]; omega)
    (by simpa using hsol0) (by simpa using hsol1) hAA (by rw [e1]; exact hA5)
    (by
      intro j hj
      have hj2 : j = 0 ∨ j = 1 := by omega
      rcases hj2 with h | h
      · subst h
        rw [← hV1]
        congr 2
        omega
      · subst h
        rw [← hV2]
        congr 2
        omega)
    (by
      intro q k hq hk hor
      exact hrest q k hq hk (by omega))
  rw [e2, hAAv, hA5v] at hb
  have hkey : ((256 * (a / 256) + a % 256 + 65534) % 65536 + 2) % 65536 = a := by omega
  have hhi : 7 + 3 * t + 2 + c.ci.frame_stride * r = c.ci.frame_stride * r + (3 + 3 * (t + 2)) := by
    omega
  have hlo : 7 + 3 * t + 5 + c.ci.frame_stride * r = c.ci.frame_stride * r + (3 + 3 * (t + 3)) := by
    omega
  rw [assign_run_one, map_assign_nil, hkey, hhi, hlo] at hb
  rw [parse_registers_empty_ok c data [a] _ hempty hb, read_registers_single, hV1v, hV2v]
  have hval : 256 * (v / 256) + v % 256 = v := by omega
  rw [hval]


theorem region_round_trip_zero (i : Nat) (h0 : i ≠ 0) (h1 : i ≠ 2743) (h2 : i ≠ 2759)
    (h3 : i ≠ 2762) (h4 : i ≠ 2765) (h5 : i ≠ 2767) (h6 : i ≠ 2768) (h7 : i ≠ 2770) :
    load region_round_trip i = 0 := by
  unfold load region_round_trip
  simp only [h0, h1, h2, h3, h4, h5, h6, h7, if_false]

/-- C2 at address `0x0000` (where the subtraction of 2 wraps) and value `0xBEEF`, in row 1. -/
theorem parse_registers_round_trip_witness :
    (ar0231_parse_registers (cam region_round_trip []) region_round_trip [0x0000]).2 =
      some [(0x0000, 0xBEEF)] :=
  parse_registers_round_trip (cam region_round_trip []) region_round_trip 0x0000 0xBEEF 1 5
    rfl (by decide) (by decide) (by decide) (Or.inr ⟨rfl, by decide⟩) (by decide) (by decide)
    (by decide) (by decide) (by decide) (by decide) (by decide) (by decide) (by decide)
    (by decide)
    (by
      intro q k hq hk hne
      have hq2 : q = 0 ∨ q = 1 := by omega
      rcases hq2 with h | h
      · subst h
        rw [max_i_row0] at hk
        rw [region_round_trip_zero _ (by omega) (by simp only [cam]; omega)
          (by simp only [cam]; omega) (by simp only [cam]; omega)
          (by simp only [cam]; omega) (by simp only [cam]; omega)
          (by simp only [cam]; omega) (by simp only [cam]; omega)]
        exact is_marker_zero
      · subst h
        rw [max_i_row1] at hk
        rw [region_round_trip_zero _ (by simp only [cam]; omega)
          (by simp only [cam]; omega)
          (by simp only [cam]; omega) (by simp only [cam]; omega)
          (by simp only [cam]; omega) (by simp only [cam]; omega)
          (by simp only [cam]; omega) (by simp only [cam]; omega)]
        exact is_marker_zero)

theorem parse_registers_of_lut (c : CameraState) (data : Bytes) (addrs : List Nat) (lut : Lut)
    (h : lut_in_use c data = some lut) :
    ar0231_parse_registers c data addrs =
      ({ c with ar0231_register_lut := (read_registers data addrs (lut, [])).1 },
        some (read_registers data addrs (lut, [])).2) := by
  unfold lut_in_use at h
  cases hc : c.ar0231_register_lut with
  | nil =>
    rw [hc] at h
    exact parse_registers_empty_ok c data addrs lut hc h
  | cons e rest =>
    rw [hc] at h
    have hne : c.ar0231_register_lut ≠ [] := by
      rw [hc]
      exact List.cons_ne_nil _ _
    have hl : lut = c.ar0231_register_lut := by
      rw [hc]
      simpa using h.symm
    rw [hl]
    exact parse_registers_cached c data addrs hne

theorem lut_in_use_cached (c : CameraState) (data : Bytes) (hne : c.ar0231_register_lut ≠ []) :
    lut_in_use c data = some c.ar0231_register_lut := by
  unfold lut_in_use
  cases hc : c.ar0231_register_lut with
  | nil => exact absurd hc hne
  | cons e rest => rfl

theorem lut_in_use_empty (c : CameraState) (data : Bytes) (he : c.ar0231_register_lut = []) :
    lut_in_use c data = ar0231_build_register_lut c data := by
  unfold lut_in_use
  rw [he]
  rfl

theorem cam_stride (buf : Bytes) (lut : Lut) : (cam buf lut).ci.frame_stride = 2743 := rfl

theorem build_region_golden (buf : Bytes) (lut : Lut) :
    ar0231_build_register_lut (cam buf lut) region_golden =
      some [(0x2000, (9, 12)), (0x2002, (15, 18))] := by
  have hb := build_group (cam buf lut) region_golden 0 0 2 (by decide)
    (by rw [max_i_row0]; omega) (by rw [cam_stride]; decide) (by rw [cam_stride]; decide)
    (by rw [cam_stride]; decide) (by rw [cam_stride]; decide)
    (by
      intro j hj
      have : j = 0 ∨ j = 1 ∨ j = 2 ∨ j = 3 := by omega
      rcases this with h | h | h | h <;> subst h <;> rw [cam_stride] <;> decide)
    (by
      intro q k hq hk hor
      have hq2 : q = 0 ∨ q = 1 := by omega
      rcases hq2 with h | h
      · subst h
        rw [region_golden_zero _ (by omega) (by rw [max_i_row0] at hk; omega)]
        exact is_marker_zero
      · subst h
        rw [region_golden_zero _ (by simp only [cam]; omega) (by simp only [cam]; omega)]
        exact is_marker_zero)
  rw [hb, cam_stride]
  decide

theorem region_blank_zero (i : Nat) (h1 : i ≠ 0) (h2 : i ≠ 2743) : load region_blank i = 0 := by
  unfold load region_blank
  simp only [h1, h2, if_false]

theorem build_region_blank (buf : Bytes) (lut : Lut) :
    ar0231_build_register_lut (cam buf lut) region_blank = some [] :=
  build_blank (cam buf lut) region_blank (by rw [cam_stride]; decide)
    (by rw [cam_stride]; decide)
    (by
      intro q k hq hk
      have hq2 : q = 0 ∨ q = 1 := by omega
      rcases hq2 with h | h
      · subst h
        rw [region_blank_zero _ (by omega) (by rw [max_i_row0] at hk; omega)]
        exact is_marker_zero
      · subst h
        rw [region_blank_zero _ (by simp only [cam]; omega) (by simp only [cam]; omega)]
        exact is_marker_zero)

/-- C3 fails on the code: on the region `region_golden`, whose tag stream declares only
`0x2000` and `0x2002`, the reader asked for `0x3000` from an empty cache reports no failure and
returns the value `0x0A0A`, read twice from offset 0. -/
theorem missing_register_counterexample :
    ar0231_build_register_lut (cam region_golden []) region_golden =
        some [(0x2000, (9, 12)), (0x2002, (15, 18))] ∧
      0x3000 ∉ map_keys [(0x2000, ((9 : Nat), (12 : Nat))), (0x2002, (15, 18))] ∧
      (ar0231_parse_registers (cam region_golden []) region_golden [0x3000]).2 =
        some [(0x3000, 0x0A0A)] := by
  refine ⟨build_region_golden _ _, by decide, ?_⟩
  rw [parse_registers_empty_ok _ _ _ _ rfl (build_region_golden _ _)]
  decide

/-- C3, amended: the reader has no missing-register failure. Whenever the LUT in use (cached,
or built by this call) lacks a requested address, the call still returns a result map; the
value of that address is read through the offset pair `(0, 0)`, that is
`256 * data[0] + data[0]`, and the address is added to the session LUT with the pair `(0, 0)`. -/
theorem parse_registers_missing_default (c : CameraState) (data : Bytes) (addrs : List Nat)
    (a : Nat) (lut : Lut) (hlut : lut_in_use c data = some lut) (ha : a ∈ addrs)
    (hmiss : a ∉ map_keys lut) :
    ∃ regs, (ar0231_parse_registers c data addrs).2 = some regs ∧
      map_find regs a = some (256 * load data 0 + load data 0) ∧
      map_find (ar0231_parse_registers c data addrs).1.ar0231_register_lut a = some (0, 0) := by
  rw [parse_registers_of_lut c data addrs lut hlut]
  have hn := (map_find_eq_none_iff lut a).2 hmiss
  refine ⟨_, rfl, ?_, ?_⟩
  · rw [read_registers_find, if_pos ha, hn]
    rfl
  · show map_find (read_registers data addrs (lut, [])).1 a = some (0, 0)
    rw [read_registers_lut_find, hn]
    simp [ha]

/-- C3, amended, at `region_golden` and the undeclared address `0x3000`. -/
theorem parse_registers_missing_default_witness :
    ∃ regs, (ar0231_parse_registers (cam region_golden []) region_golden [0x3000]).2 = some regs ∧
      map_find regs 0x3000 = some 0x0A0A ∧
      map_find (ar0231_parse_registers (cam region_golden []) region_golden
        [0x3000]).1.ar0231_register_lut 0x3000 = some (0, 0) :=
  parse_registers_missing_default (cam region_golden []) region_golden [0x3000] 0x3000
    [(0x2000, (9, 12)), (0x2002, (15, 18))]
    ((lut_in_use_empty _ _ rfl).trans (build_region_golden _ _)) (by decide) (by decide)

/-- C4 fails on the code: the first call, on the tag-free region `region_blank` with an empty
address list, builds an empty LUT and leaves the cache empty; the second call, on
`region_golden`, therefore builds again and resolves `0x2000` through the pair `(9, 12)` that
comes from the tags of the second region. -/
theorem memoization_rebuild_counterexample :
    ar0231_build_register_lut (cam region_blank []) region_blank = some [] ∧
      (ar0231_parse_registers (cam region_blank []) region_blank []).1.ar0231_register_lut = [] ∧
      (ar0231_parse_registers (ar0231_parse_registers (cam region_blank []) region_blank []).1
        region_golden [0x2000]).2 = some [(0x2000, 0x1234)] ∧
      (ar0231_parse_registers (ar0231_parse_registers (cam region_blank []) region_blank []).1
        region_golden [0x2000]).1.ar0231_register_lut = [(0x2000, (9, 12)), (0x2002, (15, 18))] := by
  have h1 : ar0231_parse_registers (cam region_blank []) region_blank [] =
      (cam region_blank [], some []) := by
    rw [parse_registers_empty_ok _ _ _ _ rfl (build_region_blank _ _)]
    rfl
  rw [h1]
  refine ⟨build_region_blank _ _, rfl, ?_, ?_⟩
  · rw [parse_registers_empty_ok _ _ _ _ rfl (build_region_golden _ _)]
    decide
  · rw [parse_registers_empty_ok _ _ _ _ rfl (build_region_golden _ _)]
    decide

/-- C4, amended: when the first call, from an empty cache, builds the LUT `lut1` from `B1` and
either `lut1` is not empty or that call requested at least one address, a second call on any
region `B2` with any address list does not rebuild: it returns a result map in which every
requested address `a` has the value `256 * B2[hi] + B2[lo]` for the pair `(hi, lo)` that `lut1`
gives to `a`, and for the pair `(0, 0)` when `lut1` has no entry for `a`. -/
theorem parse_registers_memoized (c : CameraState) (B1 B2 : Bytes) (addrs1 addrs2 : List Nat)
    (lut1 : Lut) (hempty : c.ar0231_register_lut = [])
    (hbuild : ar0231_build_register_lut c B1 = some lut1)
    (hne : lut1 ≠ [] ∨ addrs1 ≠ []) :
    ∃ regs2, (ar0231_parse_registers (ar0231_parse_registers c B1 addrs1).1 B2 addrs2).2 =
        some regs2 ∧
      ∀ a, a ∈ addrs2 →
        map_find regs2 a = some (256 * load B2 ((map_find lut1 a).getD (0, 0)).1 +
          load B2 ((map_find lut1 a).getD (0, 0)).2) := by
  rw [parse_registers_empty_ok c B1 addrs1 lut1 hempty hbuild]
  have hne1 : (read_registers B1 addrs1 (lut1, [])).1 ≠ [] :=
    read_registers_lut_ne_nil B1 addrs1 lut1 [] hne
  rw [parse_registers_cached _ B2 addrs2 hne1]
  refine ⟨_, rfl, ?_⟩
  intro a ha
  rw [read_registers_find, if_pos ha]
  show some (256 * load B2 ((map_find (read_registers B1 addrs1 (lut1, [])).1 a).getD (0, 0)).1 +
    load B2 ((map_find (read_registers B1 addrs1 (lut1, [])).1 a).getD (0, 0)).2) = _
  rw [read_registers_lut_find]
  cases map_find lut1 a with
  | some p => rfl
  | none =>
    by_cases h : a ∈ addrs1
    · simp [h]
    · simp [h]

/-- C4, amended, with `region_golden` as first region and `region_blank` as second. -/
theorem parse_registers_memoized_witness :
    ∃ regs2, (ar0231_parse_registers
        (ar0231_parse_registers (cam region_golden []) region_golden [0x2000]).1
        region_blank [0x2000, 0x2002]).2 = some regs2 ∧
      map_find regs2 0x2000 = some (256 * load region_blank 9 + load region_blank 12) ∧
      map_find regs2 0x2002 = some (256 * load region_blank 15 + load region_blank 18) := by
  obtain ⟨regs2, h1, h2⟩ := parse_registers_memoized (cam region_golden []) region_golden
    region_blank [0x2000] [0x2000, 0x2002] [(0x2000, (9, 12)), (0x2002, (15, 18))] rfl
    (build_region_golden _ _) (Or.inl (by decide))
  exact ⟨regs2, h1, h2 0x2000 (by decide), h2 0x2002 (by decide)⟩

/-- C5 fails on the code: with the populated cache `0x2000 ↦ (9, 12)`, a call asking for
`0x3000` leaves the cache with the additional entry `0x3000 ↦ (0, 0)`. -/
theorem lut_read_only_counterexample :
    (cam region_golden [(0x2000, (9, 12))]).ar0231_register_lut ≠ [] ∧
      (ar0231_parse_registers (cam region_golden [(0x2000, (9, 12))]) region_golden
        [0x3000]).1.ar0231_register_lut = [(0x2000, (9, 12)), (0x3000, (0, 0))] := by
  refine ⟨by decide, ?_⟩
  rw [parse_registers_cached _ _ _ (by decide)]
  decide

/-- C5, amended: a call on a populated cache keeps every entry of the LUT with its offset
pair, the keys afterwards are the old keys and the requested addresses, every requested address
that was missing is added with the pair `(0, 0)`, and when every requested address is already a
key the LUT is exactly as before. -/
theorem parse_registers_lut_frame (c : CameraState) (data : Bytes) (addrs : List Nat)
    (hne : c.ar0231_register_lut ≠ []) :
    (∀ a p, map_find c.ar0231_register_lut a = some p →
      map_find (ar0231_parse_registers c data addrs).1.ar0231_register_lut a = some p) ∧
    (∀ a, a ∈ map_keys (ar0231_parse_registers c data addrs).1.ar0231_register_lut ↔
      a ∈ map_keys c.ar0231_register_lut ∨ a ∈ addrs) ∧
    (∀ a, a ∈ addrs → a ∉ map_keys c.ar0231_register_lut →
      map_find (ar0231_parse_registers c data addrs).1.ar0231_register_lut a = some (0, 0)) ∧
    ((∀ a, a ∈ addrs → a ∈ map_keys c.ar0231_register_lut) →
      (ar0231_parse_registers c data addrs).1.ar0231_register_lut = c.ar0231_register_lut) := by
  rw [parse_registers_cached c data addrs hne]
  show (∀ a p, map_find c.ar0231_register_lut a = some p →
      map_find (read_registers data addrs (c.ar0231_register_lut, [])).1 a = some p) ∧
    (∀ a, a ∈ map_keys (read_registers data addrs (c.ar0231_register_lut, [])).1 ↔
      a ∈ map_keys c.ar0231_register_lut ∨ a ∈ addrs) ∧
    (∀ a, a ∈ addrs → a ∉ map_keys c.ar0231_register_lut →
      map_find (read_registers data addrs (c.ar0231_register_lut, [])).1 a = some (0, 0)) ∧
    ((∀ a, a ∈ addrs → a ∈ map_keys c.ar0231_register_lut) →
      (read_registers data addrs (c.ar0231_register_lut, [])).1 = c.ar0231_register_lut)
  refine ⟨?_, ?_, ?_, ?_⟩
  · intro a p h
    rw [read_registers_lut_find, h]
  · intro a
    rw [mem_map_keys_iff, mem_map_keys_iff, read_registers_lut_find]
    cases map_find c.ar0231_register_lut a with
    | some p => simp
    | none =>
      by_cases h : a ∈ addrs
      · simp [h]
      · simp [h]
  · intro a ha hmiss
    rw [read_registers_lut_find, (map_find_eq_none_iff _ a).2 hmiss]
    simp [ha]
  · intro h
    exact read_registers_lut_same data addrs _ _ h

/-- C5, amended, for a request of the cached address `0x2000`. -/
theorem parse_registers_lut_frame_witness :
    (ar0231_parse_registers (cam region_golden [(0x2000, (9, 12))]) region_golden
      [0x2000]).1.ar0231_register_lut = [(0x2000, (9, 12))] :=
  (parse_registers_lut_frame (cam region_golden [(0x2000, (9, 12))]) region_golden [0x2000]
    (by decide)).2.2.2 (by decide)

/-- C6: with `lut` the LUT in use (the cached one, or the one built by this call), the reader
returns a map whose keys are exactly the requested addresses, and each requested address that
`lut` maps to `(hi, lo)` has the value `256 * data[hi] + data[lo]`, at most 65535, read from the
region of this call. -/
theorem parse_registers_values (c : CameraState) (data : Bytes) (addrs : List Nat) (lut : Lut)
    (hlut : lut_in_use c data = some lut) :
    ∃ regs, (ar0231_parse_registers c data addrs).2 = some regs ∧
      (∀ a, a ∈ map_keys regs ↔ a ∈ addrs) ∧
      ∀ a hi lo, a ∈ addrs → map_find lut a = some (hi, lo) →
        map_find regs a = some (256 * load data hi + load data lo) ∧
          256 * load data hi + load data lo ≤ 65535 := by
  rw [parse_registers_of_lut c data addrs lut hlut]
  refine ⟨_, rfl, ?_, ?_⟩
  · intro a
    rw [mem_map_keys_iff, read_registers_find]
    by_cases h : a ∈ addrs
    · simp [h]
    · simp [h, map_find]
  · intro a hi lo ha hf
    have h1 := load_lt data hi
    have h2 := load_lt data lo
    refine ⟨?_, by omega⟩
    rw [read_registers_find, if_pos ha, hf]
    rfl

/-- C6 at the cached entry `0x2000 ↦ (9, 12)` on `region_golden`: the value is `0x1234`. -/
theorem parse_registers_values_witness :
    ∃ regs, (ar0231_parse_registers (cam region_golden [(0x2000, (9, 12))]) region_golden
        [0x2000]).2 = some regs ∧ map_find regs 0x2000 = some 0x1234 := by
  obtain ⟨regs, h1, _, h3⟩ := parse_registers_values (cam region_golden [(0x2000, (9, 12))])
    region_golden [0x2000] [(0x2000, (9, 12))] (lut_in_use_cached _ _ (by decide))
  exact ⟨regs, h1, (h3 0x2000 9 12 (by decide) (by decide)).1⟩

theorem preamble_mismatch_iff (data : Bytes) :
    preamble_mismatch data = true ↔ ¬ has_preamble data := by
  simp [preamble_mismatch, expected_preamble, has_preamble, List.range_succ]

theorem process_registers_mismatch (c : CameraState) (framed : FrameData)
    (h : ¬ has_preamble (register_data c)) :
    ar0231_process_registers c framed = (c, framed, Exit.returned) := by
  unfold ar0231_process_registers
  simp only [(preamble_mismatch_iff _).2 h, if_true]

theorem process_registers_match (c : CameraState) (framed : FrameData)
    (h : has_preamble (register_data c)) :
    ar0231_process_registers c framed =
      match ar0231_parse_registers c (register_data c) requested_addrs with
      | (c1, none) => (c1, framed, Exit.aborted)
      | (c1, some registers) =>
        (c1,
          { frameIdSensor := compose_frame_id (reg registers 0x2000) (reg registers 0x2002)
            temperaturesC :=
              [ar0231_parse_temp_sensor (reg registers 0x30c6) (reg registers 0x30c8)
                (reg registers 0x20b0),
               ar0231_parse_temp_sensor (reg registers 0x30ca) (reg registers 0x30cc)
                (reg registers 0x20b2)] },
          Exit.returned) := by
  have hm : preamble_mismatch (register_data c) = false := by
    cases hp : preamble_mismatch (register_data c) with
    | false => rfl
    | true => exact absurd h ((preamble_mismatch_iff _).1 hp)
  unfold ar0231_process_registers
  simp only [hm]
  rfl

/-- C7: when the first six bytes of the register region differ from `0A AA 55 20 A5 55` in at
least one byte, `ar0231_process_registers` returns normally with the camera state (LUT cache
included) and the metadata record unchanged; when they are those six bytes, it goes on to the
reader with the eight addresses `0x2000, 0x2002, 0x20B0, 0x20B2, 0x30C6, 0x30C8, 0x30CA,
0x30CC`, and its outcome is the one determined by the reader's result. -/
theorem process_registers_preamble (c : CameraState) (framed : FrameData) :
    (¬ has_preamble (register_data c) →
      ar0231_process_registers c framed = (c, framed, Exit.returned)) ∧
    (has_preamble (register_data c) →
      ar0231_process_registers c framed =
        match ar0231_parse_registers c (register_data c)
          [0x2000, 0x2002, 0x20B0, 0x20B2, 0x30C6, 0x30C8, 0x30CA, 0x30CC] with
        | (c1, none) => (c1, framed, Exit.aborted)
        | (c1, some registers) =>
          (c1,
            { frameIdSensor := compose_frame_id (reg registers 0x2000) (reg registers 0x2002)
              temperaturesC :=
                [ar0231_parse_temp_sensor (reg registers 0x30C6) (reg registers 0x30C8)
                  (reg registers 0x20B0),
                 ar0231_parse_temp_sensor (reg registers 0x30CA) (reg registers 0x30CC)
                  (reg registers 0x20B2)] },
            Exit.returned)) :=
  ⟨process_registers_mismatch c framed, process_registers_match c framed⟩

/-- C7 at `region_blank` (second byte off) and at `region_golden` (preamble present). -/
theorem process_registers_preamble_witness :
    ar0231_process_registers (cam region_blank []) frame_unset =
        (cam region_blank [], frame_unset, Exit.returned) ∧
      (ar0231_process_registers (cam region_golden []) frame_unset).1 =
        (ar0231_parse_registers (cam region_golden []) (register_data (cam region_golden []))
          [0x2000, 0x2002, 0x20B0, 0x20B2, 0x30C6, 0x30C8, 0x30CA, 0x30CC]).1 := by
  refine ⟨(process_registers_preamble (cam region_blank []) frame_unset).1 (by decide), ?_⟩
  rw [(process_registers_preamble (cam region_golden []) frame_unset).2 (by decide)]
  cases h : ar0231_parse_registers (cam region_golden []) (register_data (cam region_golden []))
    [0x2000, 0x2002, 0x20B0, 0x20B2, 0x30C6, 0x30C8, 0x30CA, 0x30CC] with
  | mk c1 r => cases r <;> rfl

theorem register_data_cam (buf : Bytes) (lut : Lut) : register_data (cam buf lut) = buf := by
  funext j
  simp [register_data, cam]

theorem compose_frame_id_eq (hi lo : Nat) (h1 : hi < 65536) (h2 : lo < 65536) :
    compose_frame_id hi lo = hi * 65536 + lo := by
  unfold compose_frame_id
  have e1 : hi % 2 ^ 32 = hi := Nat.mod_eq_of_lt (by omega)
  have e2 : (hi <<< 16) % 2 ^ 32 = 2 ^ 16 * hi := by
    rw [Nat.shiftLeft_eq, Nat.mul_comm]
    exact Nat.mod_eq_of_lt (by omega)
  rw [e1, e2, ← @Nat.mul_add_lt_is_or 16 lo h2 hi]
  omega

theorem parse_registers_some (c : CameraState) (data : Bytes) (addrs : List Nat) (c1 : CameraState)
    (registers : StdMap Nat) (h : ar0231_parse_registers c data addrs = (c1, some registers)) :
    ∃ lut, lut_in_use c data = some lut ∧
      registers = (read_registers data addrs (lut, [])).2 := by
  cases hl : lut_in_use c data with
  | none =>
    have he : c.ar0231_register_lut = [] := by
      cases hc : c.ar0231_register_lut with
      | nil => rfl
      | cons e rest =>
        rw [lut_in_use_cached c data (by rw [hc]; exact List.cons_ne_nil _ _)] at hl
        cases hl
    rw [lut_in_use_empty c data he] at hl
    rw [parse_registers_empty_fail c data addrs he hl] at h
    cases h
  | some lut =>
    rw [parse_registers_of_lut c data addrs lut hl] at h
    refine ⟨lut, rfl, ?_⟩
    simp only [Prod.mk.injEq, Option.some.injEq] at h
    exact h.2.symm

theorem reg_eq (registers : StdMap Nat) (a : Nat) : reg registers a = (map_find registers a).getD 0 := by
  unfold reg map_index
  cases map_find registers a <;> rfl

theorem reg_of_parse (c : CameraState) (data : Bytes) (addrs : List Nat) (c1 : CameraState)
    (registers : StdMap Nat) (h : ar0231_parse_registers c data addrs = (c1, some registers))
    (a : Nat) (ha : a ∈ addrs) : reg registers a < 65536 := by
  obtain ⟨lut, _, hr⟩ := parse_registers_some c data addrs c1 registers h
  rw [reg_eq, hr, read_registers_find, if_pos ha]
  have h1 := load_lt data ((map_find lut a).getD (0, 0)).1
  have h2 := load_lt data ((map_find lut a).getD (0, 0)).2
  show 256 * load data ((map_find lut a).getD (0, 0)).1 +
    load data ((map_find lut a).getD (0, 0)).2 < 65536
  omega

/-- C8: when the preamble is present and the reader returns the map `registers`, the values
`a = registers[0x2000]` and `b = registers[0x2002]` are 16-bit and the frame id written to the
record is exactly `a * 65536 + b`: below `2 ^ 32`, with high half `a` and low half `b`; and
the composition is injective on pairs of 16-bit values. -/
theorem process_registers_frame_id (c : CameraState) (framed : FrameData) (c1 : CameraState)
    (registers : StdMap Nat) (hpre : has_preamble (register_data c))
    (hparse : ar0231_parse_registers c (register_data c) requested_addrs = (c1, some registers)) :
    reg registers 0x2000 < 65536 ∧ reg registers 0x2002 < 65536 ∧
      (ar0231_process_registers c framed).2.1.frameIdSensor =
        reg registers 0x2000 * 65536 + reg registers 0x2002 ∧
      (ar0231_process_registers c framed).2.1.frameIdSensor < 2 ^ 32 ∧
      (ar0231_process_registers c framed).2.1.frameIdSensor / 65536 = reg registers 0x2000 ∧
      (ar0231_process_registers c framed).2.1.frameIdSensor % 65536 = reg registers 0x2002 ∧
      ∀ a b a2 b2, a < 65536 → b < 65536 → a2 < 65536 → b2 < 65536 →
        compose_frame_id a b = compose_frame_id a2 b2 → a = a2 ∧ b = b2 := by
  have ha := reg_of_parse c _ _ c1 registers hparse 0x2000 (by decide)
  have hb := reg_of_parse c _ _ c1 registers hparse 0x2002 (by decide)
  have hid : (ar0231_process_registers c framed).2.1.frameIdSensor =
      reg registers 0x2000 * 65536 + reg registers 0x2002 := by
    rw [process_registers_match c framed hpre, hparse]
    exact compose_frame_id_eq _ _ ha hb
  refine ⟨ha, hb, hid, ?_, ?_, ?_, ?_⟩
  · rw [hid]
    omega
  · rw [hid]
    omega
  · rw [hid]
    omega
  · intro a b a2 b2 h1 h2 h3 h4 h
    rw [compose_frame_id_eq a b h1 h2, compose_frame_id_eq a2 b2 h3 h4] at h
    omega

/-- C8 at `region_golden`, where `0x2000` reads `0x1234` and `0x2002` reads `0x5678`. -/
theorem process_registers_frame_id_witness :
    (ar0231_process_registers (cam region_golden []) frame_unset).2.1.frameIdSensor =
      0x12345678 := by
  have hparse := parse_registers_empty_ok (cam region_golden [])
    (register_data (cam region_golden [])) requested_addrs _ rfl
    (by rw [register_data_cam]; exact build_region_golden _ _)
  have h := (process_registers_frame_id (cam region_golden []) frame_unset _ _ (by decide)
    hparse).2.2.1
  rw [h, register_data_cam]
  decide

theorem build_none_iff (c : CameraState) (data : Bytes) :
    ar0231_build_register_lut c data = none ↔
      (load data 0 ≠ 0x0A ∨ load data c.ci.frame_stride ≠ 0x0A) := by
  unfold ar0231_build_register_lut
  by_cases h0 : load data (c.ci.frame_stride * 0) = 0x0A
  · rw [build_row_ok c data 0 [] h0]
    show build_row c data 1 _ = none ↔ _
    by_cases h1 : load data (c.ci.frame_stride * 1) = 0x0A
    · rw [build_row_ok c data 1 _ h1]
      simp only [Nat.mul_zero, Nat.mul_one] at h0 h1
      simp [h0, h1]
    · rw [build_row_fail c data 1 _ h1]
      simp only [Nat.mul_zero, Nat.mul_one] at h0 h1
      simp [h1]
  · rw [build_row_fail c data 0 [] h0]
    simp only [Nat.mul_zero] at h0
    simp [h0]

/-- C9: `ar0231_build_register_lut` ends in the failed start-of-line assertion exactly when
`data[0]` or `data[stride]` is not `0x0A`, whatever else the region holds (so also when only row
1 lacks the marker and row 0 has been scanned); and a reader call that triggered such a build
from an empty cache ends with the camera state unchanged, its cache still empty. -/
theorem build_register_lut_fails_iff (c : CameraState) (data : Bytes) :
    (ar0231_build_register_lut c data = none ↔
      (load data 0 ≠ 0x0A ∨ load data c.ci.frame_stride ≠ 0x0A)) ∧
    (∀ addrs, c.ar0231_register_lut = [] → ar0231_build_register_lut c data = none →
      ar0231_parse_registers c data addrs = (c, none)) :=
  ⟨build_none_iff c data, fun addrs he hb => parse_registers_empty_fail c data addrs he hb⟩

/-- C9 at `region_no_row1_marker`, where row 0 starts with `0x0A` and row 1 does not. -/
theorem build_register_lut_fails_iff_witness :
    load region_no_row1_marker 0 = 0x0A ∧
      ar0231_build_register_lut (cam region_no_row1_marker []) region_no_row1_marker = none ∧
      ar0231_parse_registers (cam region_no_row1_marker []) region_no_row1_marker [0x2000] =
        (cam region_no_row1_marker [], none) := by
  have h := build_register_lut_fails_iff (cam region_no_row1_marker []) region_no_row1_marker
  have hb := h.1.2 (Or.inr (by decide))
  exact ⟨by decide, hb, h.2 [0x2000] rfl hb⟩

/-- C10 fails on the code: with the populated cache `0x2000 ↦ (9, 12)`, the region
`region_no_row1_marker` passes the preamble check, its row 1 does not start with `0x0A`, and the
extractor returns normally, having written the frame id `0x0A0A`. -/
theorem structural_violation_counterexample :
    has_preamble (register_data (cam region_no_row1_marker [(0x2000, (9, 12))])) ∧
      load (register_data (cam region_no_row1_marker [(0x2000, (9, 12))]))
        (cam region_no_row1_marker [(0x2000, (9, 12))]).ci.frame_stride ≠ 0x0A ∧
      (ar0231_process_registers (cam region_no_row1_marker [(0x2000, (9, 12))])
        frame_unset).2.2 = Exit.returned ∧
      (ar0231_process_registers (cam region_no_row1_marker [(0x2000, (9, 12))])
        frame_unset).2.1.frameIdSensor = 0x0A0A := by
  refine ⟨by decide, by decide, ?_, ?_⟩
  · rw [process_registers_match _ _ (by decide), parse_registers_cached _ _ _ (by decide)]
  · rw [process_registers_match _ _ (by decide), parse_registers_cached _ _ _ (by decide)]
    decide

/-- C10, amended: for a camera state whose LUT cache is empty and a region that passes the
preamble check but whose row 1 does not start with `0x0A`, `ar0231_process_registers` ends in
the failed start-of-line assertion instead of completing the extraction. -/
theorem process_registers_structural_on_build (c : CameraState) (framed : FrameData)
    (hempty : c.ar0231_register_lut = [])
    (hpre : has_preamble (register_data c))
    (hrow1 : load (register_data c) c.ci.frame_stride ≠ 0x0A) :
    (ar0231_process_registers c framed).2.2 = Exit.aborted := by
  have hb := (build_none_iff c (register_data c)).2 (Or.inr hrow1)
  rw [process_registers_match c framed hpre,
    parse_registers_empty_fail c (register_data c) requested_addrs hempty hb]

/-- C10, amended, at `region_no_row1_marker` with an empty cache. -/
theorem process_registers_structural_on_build_witness :
    (ar0231_process_registers (cam region_no_row1_marker []) frame_unset).2.2 = Exit.aborted :=
  process_registers_structural_on_build (cam region_no_row1_marker []) frame_unset rfl
    (by decide) (by decide)

/-! ## The scan loop as a fold over its indices -/

/-- The scan is the body folded over the indices of the loop header. -/
theorem scan_row_fold (base : Nat) (raw : Bytes) (bound : Nat) (n : Nat) :
    ∀ (i : Nat) (s : ScanState), bound + 1 - i ≤ n →
      scan_row base raw bound i s =
        (scan_indices bound i).foldl (fun st j => scan_body base raw j st) s := by
  induction n with
  | zero =>
    intro i s h
    rw [scan_row, scan_indices, if_neg (by omega), if_neg (by omega)]
    rfl
  | succ n ih =>
    intro i s h
    rw [scan_row, scan_indices]
    by_cases hb : i ≤ bound
    · rw [if_pos hb, if_pos hb, List.foldl_cons]
      apply ih
      simp only [get_next_idx]
      split <;> split <;> omega
    · rw [if_neg hb, if_neg hb]
      rfl

theorem scan_indices_step (bound i : Nat) (hi : i % 3 = 1) (hb : i ≤ bound) :
    scan_indices bound i = i :: scan_indices bound (i + 3) := by
  rw [scan_indices, if_pos hb, get_next_idx_twice i hi]

theorem scan_indices_done (bound i : Nat) (hb : bound < i) : scan_indices bound i = [] := by
  rw [scan_indices, if_neg (by omega)]

/-- From a tag position on, the loop visits every third index up to the bound. -/
theorem scan_indices_eq (bound : Nat) (n : Nat) :
    ∀ (i : Nat), i % 3 = 1 → (bound + 3 - i) / 3 = n →
      scan_indices bound i = (List.range n).map (fun k => i + 3 * k) := by
  induction n with
  | zero =>
    intro i _ h
    rw [scan_indices_done bound i (by omega)]
    rfl
  | succ n ih =>
    intro i hi h
    rw [scan_indices_step bound i hi (by omega), ih (i + 3) (by omega) (by omega),
      List.range_succ_eq_map, List.map_cons, List.map_map]
    simp only [Nat.mul_zero, Nat.add_zero, List.cons.injEq, true_and]
    apply List.map_congr_left
    intro k _
    simp only [Function.comp, Nat.succ_eq_add_one]
    omega

theorem scan_upto_succ (base : Nat) (raw : Bytes) (k : Nat) (s : ScanState) :
    scan_upto base raw (k + 1) s = scan_body base raw (1 + 3 * k) (scan_upto base raw k s) := rfl

theorem foldl_range_scan_upto (base : Nat) (raw : Bytes) (s : ScanState) (n : Nat) :
    ((List.range n).map (fun k => 1 + 3 * k)).foldl (fun st j => scan_body base raw j st) s =
      scan_upto base raw n s := by
  induction n with
  | zero => rfl
  | succ n ih =>
    rw [List.range_succ, List.map_append, List.foldl_append, ih]
    rfl

/-- The scan of a row is the body run at its first `(bound + 2) / 3` tag positions. -/
theorem scan_row_eq_upto (base : Nat) (raw : Bytes) (bound : Nat) (s : ScanState) :
    scan_row base raw bound 1 s = scan_upto base raw ((bound + 2) / 3) s := by
  rw [scan_row_fold base raw bound (bound + 1) 1 s (by omega),
    scan_indices_eq bound ((bound + 2) / 3) 1 (by omega) (by omega), foldl_range_scan_upto]

theorem mem_scan_indices (bound i : Nat) :
    i ∈ scan_indices bound 1 ↔ ∃ k, k < (bound + 2) / 3 ∧ i = 1 + 3 * k := by
  rw [scan_indices_eq bound ((bound + 2) / 3) 1 (by omega) (by omega), List.mem_map]
  constructor
  · rintro ⟨k, hk, rfl⟩
    exact ⟨k, List.mem_range.1 hk, rfl⟩
  · rintro ⟨k, hk, rfl⟩
    exact ⟨k, List.mem_range.2 hk, rfl⟩

/-- C16: `get_next_idx` is the rule `i + 2` if `i mod 3 = 1`, else `i + 1`; the scan loop from
index 1 is the body folded over a finite list of indices (so it terminates), which for every
bound is `1, 4, 7, ..., 1 + 3 * k` with `k < (bound + 2) / 3`; every visited index is `1` modulo
3, reads its value at `i + 2` and advances by exactly 3. With the bounds 2742 and 2250 the loop
processes exactly 914 triplets in row 0 and 750 in row 1, never reads beyond the bound, and
reads the bound itself at the last triplet (tag 2740, resp. 2248). -/
theorem scan_loop_index_stepping :
    (∀ i, get_next_idx i = if i % 3 = 1 then i + 2 else i + 1) ∧
    (∀ (base : Nat) (raw : Bytes) (bound : Nat) (s : ScanState),
      scan_row base raw bound 1 s =
        (scan_indices bound 1).foldl (fun st j => scan_body base raw j st) s) ∧
    (∀ bound, scan_indices bound 1 = (List.range ((bound + 2) / 3)).map (fun k => 1 + 3 * k)) ∧
    (∀ bound i, i ∈ scan_indices bound 1 →
      i % 3 = 1 ∧ i ≤ bound ∧ get_next_idx i = i + 2 ∧ get_next_idx (get_next_idx i) = i + 3) ∧
    max_i 0 = 2742 ∧ max_i 1 = 2250 ∧
    scan_indices (max_i 0) 1 = (List.range 914).map (fun k => 1 + 3 * k) ∧
    scan_indices (max_i 1) 1 = (List.range 750).map (fun k => 1 + 3 * k) ∧
    (scan_indices (max_i 0) 1).length = 914 ∧ (scan_indices (max_i 1) 1).length = 750 ∧
    (∀ r i, i ∈ scan_indices (max_i r) 1 → get_next_idx i ≤ max_i r) ∧
    (2740 ∈ scan_indices (max_i 0) 1 ∧ get_next_idx 2740 = max_i 0) ∧
    (2248 ∈ scan_indices (max_i 1) 1 ∧ get_next_idx 2248 = max_i 1) := by
  have h0 : scan_indices (max_i 0) 1 = (List.range 914).map (fun k => 1 + 3 * k) :=
    scan_indices_eq (max_i 0) 914 1 (by omega) (by rw [max_i_row0])
  have h1 : scan_indices (max_i 1) 1 = (List.range 750).map (fun k => 1 + 3 * k) :=
    scan_indices_eq (max_i 1) 750 1 (by omega) (by rw [max_i_row1])
  refine ⟨fun i => rfl, ?_, ?_, ?_, max_i_row0, max_i_row1, h0, h1, ?_, ?_, ?_, ?_, ?_⟩
  · intro base raw bound s
    exact scan_row_fold base raw bound (bound + 1) 1 s (by omega)
  · intro bound
    exact scan_indices_eq bound ((bound + 2) / 3) 1 (by omega) (by omega)
  · intro bound i hi
    obtain ⟨k, hk, rfl⟩ := (mem_scan_indices bound i).1 hi
    exact ⟨by omega, by omega, get_next_idx_tag _ (by omega), get_next_idx_twice _ (by omega)⟩
  · rw [h0, List.length_map, List.length_range]
  · rw [h1, List.length_map, List.length_range]
  · intro r i hi
    obtain ⟨k, hk, rfl⟩ := (mem_scan_indices (max_i r) i).1 hi
    rw [get_next_idx_tag _ (by omega)]
    have hr : max_i r = 2742 ∨ max_i r = 2250 := by
      unfold max_i
      split
      · left; rfl
      · right; rfl
    rcases hr with h | h <;> rw [h] at hk ⊢ <;> omega
  · refine ⟨(mem_scan_indices _ _).2 ⟨913, by rw [max_i_row0]; omega, rfl⟩, ?_⟩
    rw [get_next_idx_tag _ (by omega), max_i_row0]
  · refine ⟨(mem_scan_indices _ _).2 ⟨749, by rw [max_i_row1]; omega, rfl⟩, ?_⟩
    rw [get_next_idx_tag _ (by omega), max_i_row1]

/-- C16 at the last triplet of row 0, tag position 2740. -/
theorem scan_loop_index_stepping_witness :
    2740 % 3 = 1 ∧ 2740 ≤ 2742 ∧ get_next_idx 2740 = 2740 + 2 ∧
      get_next_idx (get_next_idx 2740) = 2740 + 3 :=
  scan_loop_index_stepping.2.2.2.1 2742 2740
    ((scan_loop_index_stepping.2.2.1 2742).symm ▸
      List.mem_map.2 ⟨913, List.mem_range.2 (by omega), rfl⟩)

/-! ## Entries of a built LUT -/

theorem mem_map_assign {V : Type} (m : StdMap V) (a : Nat) (v : V) (e : Nat × V)
    (h : e ∈ map_assign m a v) : e = (a, v) ∨ e ∈ m := by
  induction m with
  | nil =>
    simp only [map_assign, List.mem_singleton] at h
    exact Or.inl h
  | cons x rest ih =>
    obtain ⟨k, w⟩ := x
    simp only [map_assign] at h
    split at h
    · simp only [List.mem_cons] at h ⊢
      exact h
    · split at h
      · simp only [List.mem_cons] at h ⊢
        rcases h with h | h
        · exact Or.inl h
        · exact Or.inr (Or.inr h)
      · simp only [List.mem_cons] at h ⊢
        rcases h with h | h
        · exact Or.inr (Or.inl h)
        · rcases ih h with h2 | h2
          · exact Or.inl h2
          · exact Or.inr (Or.inr h2)

theorem mem_of_map_find {V : Type} (m : StdMap V) (a : Nat) (v : V) (h : map_find m a = some v) :
    (a, v) ∈ m := by
  induction m with
  | nil => simp [map_find] at h
  | cons x rest ih =>
    obtain ⟨k, w⟩ := x
    simp only [map_find] at h
    split at h
    · rename_i hk
      simp only [Option.some.injEq] at h
      rw [hk, h]
      exact List.mem_cons_self _ _
    · exact List.mem_cons_of_mem _ (ih h)

/-- The invariant of the scan of one row: every entry of the map is an old one or a
`row_entry`, and while a value pair is half-finished `first_val_idx` is the value position of
a value tag already seen in this row. -/
theorem scan_upto_entries (base : Nat) (raw : Bytes) (bound : Nat) (s0 : ScanState)
    (h0 : s0.value_tag_count % 2 = 0) (k : Nat) :
    3 * k ≤ bound →
      (∀ e, e ∈ (scan_upto base raw k s0).registers →
        e ∈ s0.registers ∨ row_entry base raw bound e) ∧
      ((scan_upto base raw k s0).value_tag_count % 2 = 1 →
        (scan_upto base raw k s0).first_val_idx % 3 = 0 ∧
        3 ≤ (scan_upto base raw k s0).first_val_idx ∧
        (scan_upto base raw k s0).first_val_idx ≤ 3 * k ∧
        load raw ((scan_upto base raw k s0).first_val_idx - 2) = 0x5A) := by
  induction k with
  | zero =>
    intro _
    refine ⟨fun e he => Or.inl he, fun h => ?_⟩
    simp only [scan_upto] at h
    omega
  | succ k ih =>
    intro hk
    obtain ⟨ih1, ih2⟩ := ih (by omega)
    rw [scan_upto_succ]
    generalize scan_upto base raw k s0 = s at ih1 ih2
    have hi : (1 + 3 * k) % 3 = 1 := by omega
    by_cases hAA : load raw (1 + 3 * k) = 0xAA
    · rw [scan_body_msb base raw _ s hi hAA]
      refine ⟨ih1, fun h => ?_⟩
      have := ih2 h
      exact ⟨this.1, this.2.1, Nat.le_trans this.2.2.1 (by omega), this.2.2.2⟩
    · by_cases hA5 : load raw (1 + 3 * k) = 0xA5
      · rw [scan_body_lsb base raw _ s hi hA5]
        refine ⟨ih1, fun h => ?_⟩
        have := ih2 h
        exact ⟨this.1, this.2.1, Nat.le_trans this.2.2.1 (by omega), this.2.2.2⟩
      · by_cases h5A : load raw (1 + 3 * k) = 0x5A
        · by_cases hc : s.value_tag_count % 2 = 0
          · rw [scan_body_first base raw _ s hi h5A hc]
            refine ⟨ih1, fun _ => ?_⟩
            refine ⟨by simp only; omega, by simp only; omega, by simp only; omega, ?_⟩
            simp only
            rw [← h5A]
            congr 1
          · have hc1 : s.value_tag_count % 2 = 1 := by omega
            rw [scan_body_second base raw _ s hi h5A hc1]
            obtain ⟨f1, f2, f3, f4⟩ := ih2 hc1
            refine ⟨?_, fun h => ?_⟩
            · intro e he
              rcases mem_map_assign _ _ _ e he with h | h
              · right
                refine ⟨s.first_val_idx, 1 + 3 * k + 2, ?_, f1, by omega, f2, by omega, by omega,
                  f4, ?_⟩
                · rw [h]
                · rw [← h5A]
                  congr 1
              · exact ih1 e h
            · simp only at h
              omega
        · rw [scan_body_idle base raw _ s (by
            simp only [is_marker, not_or]
            exact ⟨hAA, hA5, h5A⟩)]
          refine ⟨ih1, fun h => ?_⟩
          have := ih2 h
          exact ⟨this.1, this.2.1, Nat.le_trans this.2.2.1 (by omega), this.2.2.2⟩

theorem max_i_cases (r : Nat) : max_i r = 2742 ∨ max_i r = 2250 := by
  unfold max_i
  split
  · left; rfl
  · right; rfl

/-- One pass of the outer loop adds only entries of that row. -/
theorem build_row_entries (c : CameraState) (data : Bytes) (r : Nat) (regs out : Lut)
    (h : build_row c data r regs = some out) :
    ∀ e, e ∈ out → e ∈ regs ∨
      row_entry (c.ci.frame_stride * r) (fun j => data (c.ci.frame_stride * r + j)) (max_i r) e := by
  by_cases hs : load data (c.ci.frame_stride * r) = 0x0A
  · rw [build_row_ok c data r regs hs, scan_row_eq_upto] at h
    simp only [Option.some.injEq] at h
    intro e he
    rw [← h] at he
    have hm := max_i_cases r
    exact (scan_upto_entries _ _ (max_i r)
      { value_tag_count := 0, first_val_idx := 0, cur_addr := 0, registers := regs } rfl
      ((max_i r + 2) / 3) (by omega)).1 e he
  · rw [build_row_fail c data r regs hs] at h
    cases h

/-- Every entry of a built LUT is an entry of row 0 or of row 1. -/
theorem build_entries (c : CameraState) (data : Bytes) (lut : Lut)
    (h : ar0231_build_register_lut c data = some lut) :
    ∀ e, e ∈ lut → ∃ r, r < 2 ∧
      row_entry (c.ci.frame_stride * r) (fun j => data (c.ci.frame_stride * r + j)) (max_i r) e := by
  unfold ar0231_build_register_lut at h
  cases h0 : build_row c data 0 [] with
  | none =>
    rw [h0] at h
    cases h
  | some regs0 =>
    rw [h0] at h
    intro e he
    rcases build_row_entries c data 1 regs0 lut h e he with h1 | h1
    · rcases build_row_entries c data 0 [] regs0 h0 e h1 with h2 | h2
      · cases h2
      · exact ⟨0, by omega, h2⟩
    · exact ⟨1, by omega, h1⟩

/-- C17: every entry `(hi, lo)` of a LUT returned by `ar0231_build_register_lut` lies in one
row `r`: `hi = stride * r + p` and `lo = stride * r + q` with `p`, `q` multiples of 3,
`3 ≤ p < q`, `q ≥ p + 3`, and the bytes two positions before each are value tags,
`data[stride * r + p - 2] = data[stride * r + q - 2] = 0x5A`. In particular `hi` is never 0
nor a position of the other row. -/
theorem lut_entries_value_tagged (c : CameraState) (data : Bytes) (lut : Lut)
    (h : ar0231_build_register_lut c data = some lut) :
    ∀ a hi lo, (a, (hi, lo)) ∈ lut →
      ∃ r p q, r < 2 ∧ hi = c.ci.frame_stride * r + p ∧ lo = c.ci.frame_stride * r + q ∧
        p % 3 = 0 ∧ q % 3 = 0 ∧ 3 ≤ p ∧ p < q ∧ p + 3 ≤ q ∧
        load data (c.ci.frame_stride * r + p - 2) = 0x5A ∧
        load data (c.ci.frame_stride * r + q - 2) = 0x5A := by
  intro a hi lo he
  obtain ⟨r, hr, p, q, e1, e2, e3, e4, e5, _, e7, e8⟩ := build_entries c data lut h _ he
  simp only [Prod.mk.injEq] at e1
  refine ⟨r, p, q, hr, by omega, by omega, e2, e3, e4, by omega, e5, ?_, ?_⟩
  · have e : c.ci.frame_stride * r + p - 2 = c.ci.frame_stride * r + (p - 2) := by omega
    rw [e]
    exact e7
  · have e : c.ci.frame_stride * r + q - 2 = c.ci.frame_stride * r + (q - 2) := by omega
    rw [e]
    exact e8

/-- C17 at the entry `0x2000 ↦ (9, 12)` of the LUT of `region_golden`. -/
theorem lut_entries_value_tagged_witness :
    ∃ r p q, r < 2 ∧ 9 = (cam region_golden []).ci.frame_stride * r + p ∧
      12 = (cam region_golden []).ci.frame_stride * r + q ∧
      p % 3 = 0 ∧ q % 3 = 0 ∧ 3 ≤ p ∧ p < q ∧ p + 3 ≤ q ∧
      load region_golden ((cam region_golden []).ci.frame_stride * r + p - 2) = 0x5A ∧
      load region_golden ((cam region_golden []).ci.frame_stride * r + q - 2) = 0x5A :=
  lut_entries_value_tagged (cam region_golden []) region_golden
    [(0x2000, (9, 12)), (0x2002, (15, 18))] (build_region_golden _ _) 0x2000 9 12 (by decide)

theorem map_index_mem (lut : Lut) (b : Nat) (e : Nat × (Nat × Nat))
    (h : e ∈ (map_index (0, 0) lut b).1) : e ∈ lut ∨ e.2 = (0, 0) := by
  unfold map_index at h
  cases hb : map_find lut b with
  | some v =>
    rw [hb] at h
    exact Or.inl h
  | none =>
    rw [hb] at h
    rcases mem_map_assign _ _ _ e h with h1 | h1
    · right
      rw [h1]
    · exact Or.inl h1

theorem read_registers_lut_mem (data : Bytes) (addrs : List Nat) :
    ∀ (lut : Lut) (regs : StdMap Nat) (e : Nat × (Nat × Nat)),
      e ∈ (read_registers data addrs (lut, regs)).1 → e ∈ lut ∨ e.2 = (0, 0) := by
  induction addrs with
  | nil =>
    intro lut regs e h
    exact Or.inl h
  | cons b addrs ih =>
    intro lut regs e h
    rw [read_registers_cons] at h
    rcases ih _ _ e h with h1 | h1
    · exact map_index_mem lut b e h1
    · exact Or.inr h1

theorem build_in_bounds (c : CameraState) (data : Bytes) (lut : Lut)
    (h : ar0231_build_register_lut c data = some lut) (hs : 2743 ≤ c.ci.frame_stride) :
    lut_in_bounds (2 * c.ci.frame_stride) lut := by
  intro e he
  obtain ⟨r, hr, p, q, e1, _, _, _, _, e6, _, _⟩ := build_entries c data lut h e he
  rw [e1]
  have hr2 : r = 0 ∨ r = 1 := by omega
  rcases hr2 with h0 | h0
  · subst h0
    rw [max_i_row0] at e6
    simp only [Nat.mul_zero, Nat.add_zero]
    omega
  · subst h0
    rw [max_i_row1] at e6
    simp only [Nat.mul_one]
    omega

/-- C14: every entry of a LUT returned by `ar0231_build_register_lut` was committed in a row
`r` and has both offsets in `[stride * r + 3, stride * r + bound_r]`, `bound_0 = 2742`,
`bound_1 = 2250`. Hence for a stride of at least 2743 every offset is below `2 * stride`, and
this is kept by every reader call: the session LUT stays within `2 * stride` and every address
a call resolves is read at two offsets below `2 * stride`. -/
theorem lut_offsets_in_bounds (c : CameraState) (data : Bytes) (lut : Lut)
    (h : ar0231_build_register_lut c data = some lut) :
    (∀ a hi lo, (a, (hi, lo)) ∈ lut → ∃ r, r < 2 ∧
      c.ci.frame_stride * r + 3 ≤ hi ∧ hi ≤ c.ci.frame_stride * r + max_i r ∧
      c.ci.frame_stride * r + 3 ≤ lo ∧ lo ≤ c.ci.frame_stride * r + max_i r) ∧
    (2743 ≤ c.ci.frame_stride →
      lut_in_bounds (2 * c.ci.frame_stride) lut ∧
      ∀ (c2 : CameraState) (data2 : Bytes) (addrs : List Nat) (regs : StdMap Nat),
        c2.ci.frame_stride = c.ci.frame_stride →
        lut_in_bounds (2 * c.ci.frame_stride) c2.ar0231_register_lut →
        (ar0231_parse_registers c2 data2 addrs).2 = some regs →
        lut_in_bounds (2 * c.ci.frame_stride)
          (ar0231_parse_registers c2 data2 addrs).1.ar0231_register_lut ∧
        ∀ a, a ∈ addrs → ∃ hi lo, hi < 2 * c.ci.frame_stride ∧ lo < 2 * c.ci.frame_stride ∧
          map_find (ar0231_parse_registers c2 data2 addrs).1.ar0231_register_lut a =
            some (hi, lo) ∧
          map_find regs a = some (256 * load data2 hi + load data2 lo)) := by
  refine ⟨?_, fun hs => ⟨build_in_bounds c data lut h hs, ?_⟩⟩
  · intro a hi lo he
    obtain ⟨r, hr, p, q, e1, _, _, e4, e5, e6, _, _⟩ := build_entries c data lut h _ he
    simp only [Prod.mk.injEq] at e1
    exact ⟨r, hr, by omega, by omega, by omega, by omega⟩
  · intro c2 data2 addrs regs hst hin hres
    obtain ⟨lut2, hl2, hr2⟩ := parse_registers_some c2 data2 addrs
      (ar0231_parse_registers c2 data2 addrs).1 regs (by rw [← hres])
    have hin2 : lut_in_bounds (2 * c.ci.frame_stride) lut2 := by
      cases hc : c2.ar0231_register_lut with
      | nil =>
        rw [lut_in_use_empty c2 data2 hc] at hl2
        have := build_in_bounds c2 data2 lut2 hl2 (by omega)
        rw [hst] at this
        exact this
      | cons x rest =>
        have hne : c2.ar0231_register_lut ≠ [] := by
          rw [hc]
          exact List.cons_ne_nil _ _
        rw [lut_in_use_cached c2 data2 hne] at hl2
        simp only [Option.some.injEq] at hl2
        rw [← hl2]
        exact hin
    rw [parse_registers_of_lut c2 data2 addrs lut2 hl2]
    have hafter : lut_in_bounds (2 * c.ci.frame_stride) (read_registers data2 addrs (lut2, [])).1 := by
      intro e he
      rcases read_registers_lut_mem data2 addrs lut2 [] e he with h1 | h1
      · exact hin2 e h1
      · rw [h1]
        simp only
        omega
    refine ⟨hafter, ?_⟩
    intro a ha
    have hfind := read_registers_lut_find data2 addrs lut2 [] a
    have hval := read_registers_find data2 addrs lut2 [] a
    rw [if_pos ha] at hval
    cases hf : map_find lut2 a with
    | some p =>
      rw [hf] at hfind hval
      have hb := hafter _ (mem_of_map_find _ a p hfind)
      refine ⟨p.1, p.2, hb.1, hb.2, hfind, ?_⟩
      rw [hr2]
      exact hval
    | none =>
      rw [hf] at hfind hval
      simp only [ha, if_true] at hfind
      refine ⟨0, 0, by omega, by omega, hfind, ?_⟩
      rw [hr2]
      exact hval

/-- C14 at the LUT built from `region_golden` with stride 2743. -/
theorem lut_offsets_in_bounds_witness :
    lut_in_bounds (2 * (cam region_golden []).ci.frame_stride)
      [(0x2000, (9, 12)), (0x2002, (15, 18))] :=
  ((lut_offsets_in_bounds (cam region_golden []) region_golden
    [(0x2000, (9, 12)), (0x2002, (15, 18))] (build_region_golden _ _)).2 (by decide)).1

/-! ## Rows are scanned independently -/

theorem scan_body_registers (base : Nat) (raw : Bytes) (i : Nat) (s : ScanState) :
    (scan_body base raw i s).registers =
      if load raw i = 0x5A ∧ s.value_tag_count % 2 = 1 then
        map_assign s.registers s.cur_addr (s.first_val_idx + base, get_next_idx i + base)
      else s.registers := by
  unfold scan_body
  by_cases hAA : load raw i = 0xAA
  · simp [hAA]
  · by_cases hA5 : load raw i = 0xA5
    · simp [hAA, hA5]
    · by_cases h5A : load raw i = 0x5A
      · by_cases hc : s.value_tag_count % 2 = 0
        · simp [h5A, hc]
        · have hc1 : s.value_tag_count % 2 = 1 := by omega
          simp [h5A, hc1]
      · simp [hAA, hA5, h5A]

/-- The loop variables other than the map do not depend on the map nor on the row offset. -/
theorem scan_body_control (base base2 : Nat) (raw : Bytes) (i : Nat) (s s2 : ScanState)
    (h1 : s.value_tag_count = s2.value_tag_count) (h2 : s.first_val_idx = s2.first_val_idx)
    (h3 : s.cur_addr = s2.cur_addr) :
    (scan_body base raw i s).value_tag_count = (scan_body base2 raw i s2).value_tag_count ∧
    (scan_body base raw i s).first_val_idx = (scan_body base2 raw i s2).first_val_idx ∧
    (scan_body base raw i s).cur_addr = (scan_body base2 raw i s2).cur_addr := by
  unfold scan_body
  by_cases hAA : load raw i = 0xAA
  · simp [hAA, h1, h2]
  · by_cases hA5 : load raw i = 0xA5
    · simp [hAA, hA5, h1, h2, h3]
    · by_cases h5A : load raw i = 0x5A
      · by_cases hc : s2.value_tag_count % 2 = 0
        · simp [h5A, hc, h1, h3]
        · simp [h5A, hc, h1, h2, h3]
      · simp [hAA, hA5, h5A, h1, h2, h3]

theorem shift_offsets_cons (b : Nat) (k : Nat) (w : Nat × Nat) (rest : Lut) :
    shift_offsets b ((k, w) :: rest) = (k, (w.1 + b, w.2 + b)) :: shift_offsets b rest := rfl

theorem shift_offsets_assign (b : Nat) (m : Lut) (a x y : Nat) :
    shift_offsets b (map_assign m a (x, y)) = map_assign (shift_offsets b m) a (x + b, y + b) := by
  induction m with
  | nil => rfl
  | cons e rest ih =>
    obtain ⟨k, w⟩ := e
    rw [shift_offsets_cons]
    simp only [map_assign]
    by_cases h1 : a < k
    · rw [if_pos h1, if_pos h1]
      rfl
    · rw [if_neg h1, if_neg h1]
      by_cases h2 : a = k
      · rw [if_pos h2, if_pos h2]
        rfl
      · rw [if_neg h2, if_neg h2, shift_offsets_cons, ih]

/-- Scanning with row offset `base` is scanning with offset 0 and moving the offsets. -/
theorem scan_upto_shift (base : Nat) (raw : Bytes) (k : Nat) :
    (scan_upto base raw k
        { value_tag_count := 0, first_val_idx := 0, cur_addr := 0, registers := [] }).value_tag_count =
      (scan_upto 0 raw k
        { value_tag_count := 0, first_val_idx := 0, cur_addr := 0, registers := [] }).value_tag_count ∧
    (scan_upto base raw k
        { value_tag_count := 0, first_val_idx := 0, cur_addr := 0, registers := [] }).first_val_idx =
      (scan_upto 0 raw k
        { value_tag_count := 0, first_val_idx := 0, cur_addr := 0, registers := [] }).first_val_idx ∧
    (scan_upto base raw k
        { value_tag_count := 0, first_val_idx := 0, cur_addr := 0, registers := [] }).cur_addr =
      (scan_upto 0 raw k
        { value_tag_count := 0, first_val_idx := 0, cur_addr := 0, registers := [] }).cur_addr ∧
    (scan_upto base raw k
        { value_tag_count := 0, first_val_idx := 0, cur_addr := 0, registers := [] }).registers =
      shift_offsets base (scan_upto 0 raw k
        { value_tag_count := 0, first_val_idx := 0, cur_addr := 0, registers := [] }).registers := by
  induction k with
  | zero => exact ⟨rfl, rfl, rfl, rfl⟩
  | succ k ih =>
    rw [scan_upto_succ, scan_upto_succ]
    generalize scan_upto base raw k _ = s at ih
    generalize scan_upto 0 raw k _ = s2 at ih
    obtain ⟨h1, h2, h3, h4⟩ := ih
    obtain ⟨c1, c2, c3⟩ := scan_body_control base 0 raw (1 + 3 * k) s s2 h1 h2 h3
    refine ⟨c1, c2, c3, ?_⟩
    rw [scan_body_registers, scan_body_registers, h1, h2, h3, h4]
    split
    · rw [shift_offsets_assign]
      simp
    · rfl

/-- Scanning into a map `R` is scanning into the empty map and laying the result over `R`. -/
theorem scan_upto_overlay (base : Nat) (raw : Bytes) (R : Lut) (k : Nat) :
    (scan_upto base raw k
        { value_tag_count := 0, first_val_idx := 0, cur_addr := 0, registers := R }).value_tag_count =
      (scan_upto base raw k
        { value_tag_count := 0, first_val_idx := 0, cur_addr := 0, registers := [] }).value_tag_count ∧
    (scan_upto base raw k
        { value_tag_count := 0, first_val_idx := 0, cur_addr := 0, registers := R }).first_val_idx =
      (scan_upto base raw k
        { value_tag_count := 0, first_val_idx := 0, cur_addr := 0, registers := [] }).first_val_idx ∧
    (scan_upto base raw k
        { value_tag_count := 0, first_val_idx := 0, cur_addr := 0, registers := R }).cur_addr =
      (scan_upto base raw k
        { value_tag_count := 0, first_val_idx := 0, cur_addr := 0, registers := [] }).cur_addr ∧
    ∀ a, map_find (scan_upto base raw k
        { value_tag_count := 0, first_val_idx := 0, cur_addr := 0, registers := R }).registers a =
      match map_find (scan_upto base raw k
        { value_tag_count := 0, first_val_idx := 0, cur_addr := 0, registers := [] }).registers a with
      | some p => some p
      | none => map_find R a := by
  induction k with
  | zero => exact ⟨rfl, rfl, rfl, fun a => rfl⟩
  | succ k ih =>
    rw [scan_upto_succ, scan_upto_succ]
    generalize scan_upto base raw k
      { value_tag_count := 0, first_val_idx := 0, cur_addr := 0, registers := R } = s at ih
    generalize scan_upto base raw k
      { value_tag_count := 0, first_val_idx := 0, cur_addr := 0, registers := [] } = s2 at ih
    obtain ⟨h1, h2, h3, h4⟩ := ih
    obtain ⟨c1, c2, c3⟩ := scan_body_control base base raw (1 + 3 * k) s s2 h1 h2 h3
    refine ⟨c1, c2, c3, ?_⟩
    intro a
    rw [scan_body_registers, scan_body_registers, h1, h2, h3]
    split
    · rw [map_find_assign, map_find_assign, h4 a]
      split <;> rfl
    · exact h4 a

theorem map_keys_shift (b : Nat) (m : Lut) : map_keys (shift_offsets b m) = map_keys m := by
  simp [map_keys, shift_offsets, List.map_map, Function.comp]

theorem scan_upto_sorted (base : Nat) (raw : Bytes) (s0 : ScanState)
    (h0 : (map_keys s0.registers).Pairwise (· < ·)) (k : Nat) :
    (map_keys (scan_upto base raw k s0).registers).Pairwise (· < ·) := by
  induction k with
  | zero => exact h0
  | succ k ih =>
    rw [scan_upto_succ, scan_body_registers]
    split
    · exact map_assign_sorted _ _ _ ih
    · exact ih

/-- Two maps in ascending key order with the same lookups are the same list. -/
theorem map_ext_of_sorted {V : Type} (m1 : StdMap V) :
    ∀ (m2 : StdMap V), (map_keys m1).Pairwise (· < ·) → (map_keys m2).Pairwise (· < ·) →
      (∀ a, map_find m1 a = map_find m2 a) → m1 = m2 := by
  induction m1 with
  | nil =>
    intro m2 _ _ h
    cases m2 with
    | nil => rfl
    | cons e rest =>
      have := h e.1
      simp [map_find] at this
  | cons e1 r1 ih =>
    intro m2 hs1 hs2 h
    obtain ⟨k1, v1⟩ := e1
    cases m2 with
    | nil =>
      have := h k1
      simp [map_find] at this
    | cons e2 r2 =>
      obtain ⟨k2, v2⟩ := e2
      simp only [map_keys, List.map_cons, List.pairwise_cons] at hs1 hs2
      have n1 : ∀ a, a ≤ k1 → map_find r1 a = none := by
        intro a ha
        rw [map_find_eq_none_iff]
        intro hm
        have := hs1.1 a hm
        omega
      have n2 : ∀ a, a ≤ k2 → map_find r2 a = none := by
        intro a ha
        rw [map_find_eq_none_iff]
        intro hm
        have := hs2.1 a hm
        omega
      have hk : k1 = k2 := by
        have a1 := h k1
        have a2 := h k2
        simp only [map_find, if_true] at a1 a2
        by_cases c1 : k1 = k2
        · exact c1
        · have c2 : ¬ k2 = k1 := fun x => c1 x.symm
          rw [if_neg c1] at a1
          rw [if_neg c2] at a2
          by_cases c3 : k1 < k2
          · rw [n2 k1 (by omega)] at a1
            cases a1
          · rw [n1 k2 (by omega)] at a2
            cases a2
      subst hk
      have hv : v1 = v2 := by
        have a1 := h k1
        simpa [map_find] using a1
      subst hv
      have ht : r1 = r2 := by
        apply ih r2 hs1.2 hs2.2
        intro a
        by_cases c : a = k1
        · rw [c, n1 k1 (by omega), n2 k1 (by omega)]
        · have := h a
          simpa [map_find, c] using this
      rw [ht]

theorem spec_overlay_cons (m0 : Lut) (e : Nat × (Nat × Nat)) (rest : Lut) :
    spec_overlay m0 (e :: rest) = spec_overlay (map_assign m0 e.1 e.2) rest := rfl

theorem spec_overlay_sorted (m1 : Lut) :
    ∀ (m0 : Lut), (map_keys m0).Pairwise (· < ·) →
      (map_keys (spec_overlay m0 m1)).Pairwise (· < ·) := by
  induction m1 with
  | nil => intro m0 h; exact h
  | cons e rest ih =>
    intro m0 h
    rw [spec_overlay_cons]
    exact ih _ (map_assign_sorted _ _ _ h)

theorem map_find_spec_overlay (m1 : Lut) :
    ∀ (m0 : Lut), (map_keys m1).Pairwise (· < ·) → ∀ a,
      map_find (spec_overlay m0 m1) a =
        match map_find m1 a with
        | some p => some p
        | none => map_find m0 a := by
  induction m1 with
  | nil => intro m0 _ a; rfl
  | cons e rest ih =>
    intro m0 hs a
    obtain ⟨k, v⟩ := e
    simp only [map_keys, List.map_cons, List.pairwise_cons] at hs
    rw [spec_overlay_cons, ih _ hs.2 a, map_find_assign]
    simp only [map_find]
    by_cases h : a = k
    · have hn : map_find rest a = none := by
        rw [map_find_eq_none_iff]
        intro hm
        have := hs.1 a hm
        omega
      rw [hn, if_pos h, if_pos h]
    · rw [if_neg h, if_neg h]

theorem spec_row_lut_sorted (stride : Nat) (data : Bytes) (r : Nat) :
    (map_keys (spec_row_lut stride data r)).Pairwise (· < ·) := by
  unfold spec_row_lut
  rw [map_keys_shift, scan_row_eq_upto]
  exact scan_upto_sorted _ _ _ (by simp [map_keys]) _

/-- The scan of a row into the empty map, with the row's offset, is the row's LUT of the
spec. -/
theorem scan_row_eq_spec (stride : Nat) (data : Bytes) (r : Nat) :
    (scan_row (stride * r) (fun j => data (stride * r + j)) (max_i r) 1
      { value_tag_count := 0, first_val_idx := 0, cur_addr := 0, registers := [] }).registers =
      spec_row_lut stride data r := by
  unfold spec_row_lut
  rw [scan_row_eq_upto, scan_row_eq_upto]
  exact (scan_upto_shift _ _ _).2.2.2

/-- C15: on a region with both start-of-line markers, `ar0231_build_register_lut` returns the
LUT of row 0 overlaid by the LUT of row 1, each row's LUT being the scan of that row alone from a
fresh decoder state with `stride * r` added to its offsets; an address present in the LUT of
row 1 therefore maps to its row-1 offsets, any other to its row-0 offsets, and nothing of the
decoder state of row 0 (a half-finished value pair, the pending address) reaches row 1. -/
theorem build_rows_independent (c : CameraState) (data : Bytes)
    (h0 : load data 0 = 0x0A) (h1 : load data c.ci.frame_stride = 0x0A) :
    ar0231_build_register_lut c data =
        some (spec_build_register_lut c.ci.frame_stride data) ∧
      ∀ a, map_find (spec_build_register_lut c.ci.frame_stride data) a =
        match map_find (spec_row_lut c.ci.frame_stride data 1) a with
        | some p => some p
        | none => map_find (spec_row_lut c.ci.frame_stride data 0) a := by
  have hfind := map_find_spec_overlay (spec_row_lut c.ci.frame_stride data 1)
    (spec_row_lut c.ci.frame_stride data 0) (spec_row_lut_sorted _ _ _)
  refine ⟨?_, hfind⟩
  unfold ar0231_build_register_lut
  rw [build_row_ok c data 0 [] (by simpa using h0), scan_row_eq_spec]
  show build_row c data 1 _ = _
  rw [build_row_ok c data 1 _ (by simpa using h1)]
  congr 1
  apply map_ext_of_sorted
  · rw [scan_row_eq_upto]
    exact scan_upto_sorted _ _ _ (spec_row_lut_sorted _ _ _) _
  · exact spec_overlay_sorted _ _ (spec_row_lut_sorted _ _ _)
  · intro a
    show _ = map_find (spec_overlay _ _) a
    rw [hfind a, scan_row_eq_upto, (scan_upto_overlay _ _ _ _).2.2.2 a, ← scan_row_eq_upto,
      scan_row_eq_spec]

theorem region_split_zero (i : Nat) (h0 : i ≠ 0) (h1 : i ≠ 2740) (h2 : i ≠ 2743)
    (h3 : i ≠ 2744) : load region_split i = 0 := by
  unfold load region_split
  simp only [h0, h1, h2, h3, if_false]

/-- With both start-of-line markers the builder returns the scan of row 1 into the map left by
the scan of row 0. -/
theorem build_ok (c : CameraState) (data : Bytes)
    (h0 : load data (c.ci.frame_stride * 0) = 0x0A)
    (h1 : load data (c.ci.frame_stride * 1) = 0x0A) :
    ar0231_build_register_lut c data =
      some (scan_row (c.ci.frame_stride * 1) (fun j => data (c.ci.frame_stride * 1 + j))
        (max_i 1) 1
        { value_tag_count := 0, first_val_idx := 0, cur_addr := 0
          registers := (scan_row (c.ci.frame_stride * 0)
            (fun j => data (c.ci.frame_stride * 0 + j)) (max_i 0) 1
            { value_tag_count := 0, first_val_idx := 0, cur_addr := 0
              registers := [] }).registers }).registers := by
  unfold ar0231_build_register_lut
  rw [build_row_ok c data 0 [] h0]
  show build_row c data 1 _ = _
  rw [build_row_ok c data 1 _ h1]

/-- On `region_split` nothing is committed: the value tag that opens row 1 starts a new pair. -/
theorem build_region_split (buf : Bytes) (lut : Lut) :
    ar0231_build_register_lut (cam buf lut) region_split = some [] := by
  rw [build_ok _ _ (by rw [cam_stride]; decide) (by rw [cam_stride]; decide), cam_stride,
    max_i_row0, max_i_row1]
  rw [scan_row_skip _ _ 2742 913 1 _ (by omega) (by
      intro k hk
      refine ⟨by omega, ?_⟩
      show ¬ is_marker (load region_split (2743 * 0 + (1 + 3 * k)))
      rw [region_split_zero _ (by omega) (by omega) (by omega) (by omega)]
      exact is_marker_zero),
    scan_row_step _ _ 2742 (1 + 3 * 913) _ (by omega) (by omega),
    scan_body_first (2743 * 0) (fun j => region_split (2743 * 0 + j)) (1 + 3 * 913)
      { value_tag_count := 0, first_val_idx := 0, cur_addr := 0, registers := [] }
      (by omega) (by decide) rfl,
    scan_row_done _ _ 2742 _ _ (by omega)]
  rw [scan_row_step _ _ 2250 1 _ (by omega) (by omega),
    scan_body_first (2743 * 1) (fun j => region_split (2743 * 1 + j)) 1
      { value_tag_count := 0, first_val_idx := 0, cur_addr := 0, registers := [] }
      (by omega) (by decide) rfl,
    scan_row_idle _ _ 2250 _ _ (by omega) (by
      intro k hk
      show ¬ is_marker (load region_split (2743 * 1 + (1 + 3 + 3 * k)))
      rw [region_split_zero _ (by omega) (by omega) (by omega) (by omega)]
      exact is_marker_zero)]

/-- C15 at `region_split`: the value tag closing row 0 and the value tag opening row 1 do not
form a pair, and the LUT of the spec, like the built one, is empty. -/
theorem build_rows_independent_witness :
    ar0231_build_register_lut (cam region_split []) region_split =
        some (spec_build_register_lut 2743 region_split) ∧
      spec_build_register_lut 2743 region_split = [] := by
  have h := (build_rows_independent (cam region_split []) region_split (by decide)
    (by decide)).1
  refine ⟨h, ?_⟩
  have h2 := build_region_split region_split []
  rw [h] at h2
  simpa using h2

/-! ## Outcome of the extractor -/

theorem parse_registers_none_iff (c : CameraState) (data : Bytes) (addrs : List Nat) :
    (ar0231_parse_registers c data addrs).2 = none ↔
      c.ar0231_register_lut = [] ∧ ar0231_build_register_lut c data = none := by
  constructor
  · intro h
    cases hl : lut_in_use c data with
    | some lut =>
      rw [parse_registers_of_lut c data addrs lut hl] at h
      cases h
    | none =>
      have he : c.ar0231_register_lut = [] := by
        cases hc : c.ar0231_register_lut with
        | nil => rfl
        | cons e rest =>
          rw [lut_in_use_cached c data (by rw [hc]; exact List.cons_ne_nil _ _)] at hl
          cases hl
      rw [lut_in_use_empty c data he] at hl
      exact ⟨he, hl⟩
  · rintro ⟨he, hb⟩
    rw [parse_registers_empty_fail c data addrs he hb]

/-- The outcome of the extractor when the preamble is present, by the reader's result. -/
theorem process_registers_of_parse (c : CameraState) (framed : FrameData)
    (hpre : has_preamble (register_data c)) :
    ((ar0231_parse_registers c (register_data c) requested_addrs).2 = none →
      ar0231_process_registers c framed =
        ((ar0231_parse_registers c (register_data c) requested_addrs).1, framed, Exit.aborted)) ∧
    (∀ registers, (ar0231_parse_registers c (register_data c) requested_addrs).2 = some registers →
      ar0231_process_registers c framed =
        ((ar0231_parse_registers c (register_data c) requested_addrs).1,
          { frameIdSensor := compose_frame_id (reg registers 0x2000) (reg registers 0x2002)
            temperaturesC :=
              [ar0231_parse_temp_sensor (reg registers 0x30c6) (reg registers 0x30c8)
                (reg registers 0x20b0),
               ar0231_parse_temp_sensor (reg registers 0x30ca) (reg registers 0x30cc)
                (reg registers 0x20b2)] },
          Exit.returned)) := by
  rw [process_registers_match c framed hpre]
  cases h : ar0231_parse_registers c (register_data c) requested_addrs with
  | mk c1 r =>
    constructor
    · intro hr
      simp only at hr
      rw [hr]
    · intro registers hr
      simp only at hr
      rw [hr]

/-- C11: whenever `ar0231_process_registers` ends in a failure (the failed start-of-line
assertion, the only failure the code has), the metadata record is exactly the one passed in,
frame id and temperatures alike; and in every run the record at exit is either untouched or
has both the frame id and the two temperatures written, never the frame id alone. -/
theorem process_registers_no_partial_record (c : CameraState) (framed : FrameData) :
    ((ar0231_process_registers c framed).2.2 = Exit.aborted →
      (ar0231_process_registers c framed).2.1 = framed) ∧
    ((ar0231_process_registers c framed).2.1 = framed ∨
      ∃ registers,
        (ar0231_parse_registers c (register_data c) requested_addrs).2 = some registers ∧
        (ar0231_process_registers c framed).2.2 = Exit.returned ∧
        (ar0231_process_registers c framed).2.1 =
          { frameIdSensor := compose_frame_id (reg registers 0x2000) (reg registers 0x2002)
            temperaturesC :=
              [ar0231_parse_temp_sensor (reg registers 0x30c6) (reg registers 0x30c8)
                (reg registers 0x20b0),
               ar0231_parse_temp_sensor (reg registers 0x30ca) (reg registers 0x30cc)
                (reg registers 0x20b2)] }) := by
  by_cases hpre : has_preamble (register_data c)
  · obtain ⟨p1, p2⟩ := process_registers_of_parse c framed hpre
    cases hr : (ar0231_parse_registers c (register_data c) requested_addrs).2 with
    | none =>
      rw [p1 hr]
      exact ⟨fun _ => rfl, Or.inl rfl⟩
    | some registers =>
      rw [p2 registers hr]
      refine ⟨fun h => ?_, Or.inr ⟨registers, rfl, rfl, rfl⟩⟩
      cases h
  · rw [process_registers_mismatch c framed hpre]
    exact ⟨fun _ => rfl, Or.inl rfl⟩

/-- C11 at `region_no_row1_marker` with an empty cache, where the call ends in the failure. -/
theorem process_registers_no_partial_record_witness :
    (ar0231_process_registers (cam region_no_row1_marker []) frame_unset).2.1 = frame_unset :=
  (process_registers_no_partial_record (cam region_no_row1_marker []) frame_unset).1
    (by
      rw [(process_registers_of_parse _ _ (by decide)).1
        ((parse_registers_none_iff _ _ _).2
          ⟨rfl, (build_none_iff _ _).2 (Or.inr (by decide))⟩)])

/-- C12: when the preamble is present and the reader returns the map `registers`, the call
returns and the temperature field written is the two-element list
`[T(registers[0x30C6], registers[0x30C8], registers[0x20B0]),
T(registers[0x30CA], registers[0x30CC], registers[0x20B2])]`, in that order, with `T` the
converter `ar0231_parse_temp_sensor`. -/
theorem process_registers_temperatures (c : CameraState) (framed : FrameData)
    (c1 : CameraState) (registers : StdMap Nat) (hpre : has_preamble (register_data c))
    (hparse : ar0231_parse_registers c (register_data c) requested_addrs = (c1, some registers)) :
    (ar0231_process_registers c framed).2.2 = Exit.returned ∧
      (ar0231_process_registers c framed).2.1.temperaturesC =
        [ar0231_parse_temp_sensor (reg registers 0x30C6) (reg registers 0x30C8)
          (reg registers 0x20B0),
         ar0231_parse_temp_sensor (reg registers 0x30CA) (reg registers 0x30CC)
          (reg registers 0x20B2)] := by
  rw [(process_registers_of_parse c framed hpre).2 registers (by rw [hparse])]
  exact ⟨rfl, rfl⟩

/-- C12 at `region_temps` with the cache `lut_temps`: calibration 3000 and 2000 for both
sensors, data 2500 for the first and 3500 for the second. -/
theorem process_registers_temperatures_witness :
    (ar0231_process_registers (cam region_temps lut_temps) frame_unset).2.1.temperaturesC =
      [ar0231_parse_temp_sensor 3000 2000 2500, ar0231_parse_temp_sensor 3000 2000 3500] := by
  have hparse := parse_registers_cached (cam region_temps lut_temps)
    (register_data (cam region_temps lut_temps)) requested_addrs (by decide)
  have h := (process_registers_temperatures (cam region_temps lut_temps) frame_unset _ _
    (by decide) hparse).2
  rw [h, register_data_cam]
  have e1 : reg (read_registers region_temps requested_addrs
      ((cam region_temps lut_temps).ar0231_register_lut, [])).2 0x30C6 = 3000 := by decide
  have e2 : reg (read_registers region_temps requested_addrs
      ((cam region_temps lut_temps).ar0231_register_lut, [])).2 0x30C8 = 2000 := by decide
  have e3 : reg (read_registers region_temps requested_addrs
      ((cam region_temps lut_temps).ar0231_register_lut, [])).2 0x20B0 = 2500 := by decide
  have e4 : reg (read_registers region_temps requested_addrs
      ((cam region_temps lut_temps).ar0231_register_lut, [])).2 0x30CA = 3000 := by decide
  have e5 : reg (read_registers region_temps requested_addrs
      ((cam region_temps lut_temps).ar0231_register_lut, [])).2 0x30CC = 2000 := by decide
  have e6 : reg (read_registers region_temps requested_addrs
      ((cam region_temps lut_temps).ar0231_register_lut, [])).2 0x20B2 = 3500 := by decide
  rw [e1, e2, e3, e4, e5, e6]

/-- C18: when the region passes the preamble check, the builder's start-of-line check of row
0 holds (that pass of the outer loop does not fail, whatever map it starts from); and the
extractor ends in the failed assertion exactly when the LUT cache is empty, the preamble is
present and row 1 does not start with `0x0A`. -/
theorem row0_marker_check_passes (c : CameraState) (framed : FrameData) :
    (has_preamble (register_data c) →
      ∀ regs, ∃ out, build_row c (register_data c) 0 regs = some out) ∧
    ((ar0231_process_registers c framed).2.2 = Exit.aborted ↔
      c.ar0231_register_lut = [] ∧ has_preamble (register_data c) ∧
        load (register_data c) c.ci.frame_stride ≠ 0x0A) := by
  constructor
  · intro hpre regs
    exact ⟨_, build_row_ok c (register_data c) 0 regs (by simpa using hpre.1)⟩
  · by_cases hpre : has_preamble (register_data c)
    · obtain ⟨p1, p2⟩ := process_registers_of_parse c framed hpre
      cases hr : (ar0231_parse_registers c (register_data c) requested_addrs).2 with
      | none =>
        rw [p1 hr]
        obtain ⟨he, hb⟩ := (parse_registers_none_iff _ _ _).1 hr
        have hm := (build_none_iff c (register_data c)).1 hb
        constructor
        · intro _
          refine ⟨he, hpre, ?_⟩
          rcases hm with h | h
          · exact absurd hpre.1 h
          · exact h
        · intro _
          rfl
      | some registers =>
        rw [p2 registers hr]
        constructor
        · intro h
          cases h
        · rintro ⟨he, _, hrow1⟩
          have hb := (build_none_iff c (register_data c)).2 (Or.inr hrow1)
          rw [(parse_registers_none_iff _ _ _).2 ⟨he, hb⟩] at hr
          cases hr
    · rw [process_registers_mismatch c framed hpre]
      constructor
      · intro h
        cases h
      · rintro ⟨_, h, _⟩
        exact absurd h hpre

/-- C18 at `region_no_row1_marker`: the pass over row 0 succeeds. -/
theorem row0_marker_check_passes_witness :
    ∀ regs, ∃ out, build_row (cam region_no_row1_marker [])
      (register_data (cam region_no_row1_marker [])) 0 regs = some out :=
  (row0_marker_check_passes (cam region_no_row1_marker []) frame_unset).1 (by decide)

end AR0231
